import Mathlib

/-!
Verification of the Discovery Operator core
(`src/agent/src/util/discovery_operator.rs`).

The stateful Rust code is shallowly embedded: the per-configuration
instance map and the registered-handler map become association lists
with string keys, monotonic `Instant`s become natural-number
timestamps (an explicit `now` is threaded where the code calls
`Instant::now()` / `Instant::elapsed()`), and the externally
observable actions (sending `Continue` on a list-and-watch channel,
terminating a device plugin, deleting an Instance from the cluster
API, invoking the device-plugin factory) are recorded in an effect
trace.
-/

namespace Akri

/-- Association-list lookup, mirroring `HashMap::get`. -/
def mapLookup {α : Type} (m : List (String × α)) (k : String) : Option α :=
  match m with
  | [] => none
  | (k1, v1) :: rest => if k1 = k then some v1 else mapLookup rest k

/-- Association-list insert with replace-on-existing-key semantics,
mirroring `HashMap::insert`. -/
def mapInsert {α : Type} (m : List (String × α)) (k : String) (v : α) :
    List (String × α) :=
  match m with
  | [] => [(k, v)]
  | (k1, v1) :: rest =>
    if k1 = k then (k, v) :: rest else (k1, v1) :: mapInsert rest k v

/-- Association-list removal, mirroring `HashMap::remove`. -/
def mapRemove {α : Type} (m : List (String × α)) (k : String) :
    List (String × α) :=
  m.filter (fun p => p.1 ≠ k)

/-- Key list of an association list. -/
def mapKeys {α : Type} (m : List (String × α)) : List String :=
  m.map Prod.fst

theorem mapLookup_cons_self {α : Type} {k : String} {v1 : α}
    {rest : List (String × α)} : mapLookup ((k, v1) :: rest) k = some v1 := by
  simp [mapLookup]

theorem mapLookup_cons_ne {α : Type} {k1 k : String} {v1 : α}
    {rest : List (String × α)} (h : k1 ≠ k) :
    mapLookup ((k1, v1) :: rest) k = mapLookup rest k := by
  simp [mapLookup, h]

theorem mapInsert_cons_self {α : Type} {k : String} {v1 v : α}
    {rest : List (String × α)} :
    mapInsert ((k, v1) :: rest) k v = (k, v) :: rest := by
  simp [mapInsert]

theorem mapInsert_cons_ne {α : Type} {k1 k : String} {v1 v : α}
    {rest : List (String × α)} (h : k1 ≠ k) :
    mapInsert ((k1, v1) :: rest) k v = (k1, v1) :: mapInsert rest k v := by
  simp [mapInsert, h]

theorem mapRemove_cons_self {α : Type} {k : String} {v1 : α}
    {rest : List (String × α)} :
    mapRemove ((k, v1) :: rest) k = mapRemove rest k := by
  simp [mapRemove]

theorem mapRemove_cons_ne {α : Type} {k1 k : String} {v1 : α}
    {rest : List (String × α)} (h : k1 ≠ k) :
    mapRemove ((k1, v1) :: rest) k = (k1, v1) :: mapRemove rest k := by
  simp [mapRemove, h]

theorem mapKeys_cons {α : Type} {k1 : String} {v1 : α}
    {rest : List (String × α)} :
    mapKeys ((k1, v1) :: rest) = k1 :: mapKeys rest := by
  simp [mapKeys]

theorem lookup_mapInsert_self {α : Type} (m : List (String × α)) (k : String)
    (v : α) : mapLookup (mapInsert m k v) k = some v := by
  induction m with
  | nil => simp [mapInsert, mapLookup]
  | cons p rest ih =>
    obtain ⟨k1, v1⟩ := p
    by_cases h : k1 = k
    · subst h
      rw [mapInsert_cons_self, mapLookup_cons_self]
    · rw [mapInsert_cons_ne h, mapLookup_cons_ne h, ih]

theorem lookup_mapInsert_ne {α : Type} (m : List (String × α)) {j k : String}
    (v : α) (h : j ≠ k) :
    mapLookup (mapInsert m k v) j = mapLookup m j := by
  induction m with
  | nil => simp [mapInsert, mapLookup, Ne.symm h]
  | cons p rest ih =>
    obtain ⟨k1, v1⟩ := p
    by_cases h1 : k1 = k
    · subst h1
      rw [mapInsert_cons_self, mapLookup_cons_ne (Ne.symm h),
        mapLookup_cons_ne (Ne.symm h)]
    · by_cases h2 : k1 = j
      · subst h2
        rw [mapInsert_cons_ne h1, mapLookup_cons_self, mapLookup_cons_self]
      · rw [mapInsert_cons_ne h1, mapLookup_cons_ne h2, mapLookup_cons_ne h2,
          ih]

theorem lookup_mapRemove_self {α : Type} (m : List (String × α)) (k : String) :
    mapLookup (mapRemove m k) k = none := by
  induction m with
  | nil => simp [mapRemove, mapLookup]
  | cons p rest ih =>
    obtain ⟨k1, v1⟩ := p
    by_cases h : k1 = k
    · subst h
      rw [mapRemove_cons_self, ih]
    · rw [mapRemove_cons_ne h, mapLookup_cons_ne h, ih]

theorem lookup_mapRemove_ne {α : Type} (m : List (String × α)) {j k : String}
    (h : j ≠ k) : mapLookup (mapRemove m k) j = mapLookup m j := by
  induction m with
  | nil => simp [mapRemove]
  | cons p rest ih =>
    obtain ⟨k1, v1⟩ := p
    by_cases h1 : k1 = k
    · subst h1
      rw [mapRemove_cons_self, mapLookup_cons_ne (Ne.symm h), ih]
    · by_cases h2 : k1 = j
      · subst h2
        rw [mapRemove_cons_ne h1, mapLookup_cons_self, mapLookup_cons_self]
      · rw [mapRemove_cons_ne h1, mapLookup_cons_ne h2, mapLookup_cons_ne h2,
          ih]

theorem mem_mapKeys_mapInsert {α : Type} (m : List (String × α))
    (j k : String) (v : α) :
    j ∈ mapKeys (mapInsert m k v) ↔ j ∈ mapKeys m ∨ j = k := by
  induction m with
  | nil => simp [mapInsert, mapKeys, eq_comm]
  | cons p rest ih =>
    obtain ⟨k1, v1⟩ := p
    by_cases h : k1 = k
    · subst h
      rw [mapInsert_cons_self, mapKeys_cons, mapKeys_cons]
      simp only [List.mem_cons]
      tauto
    · rw [mapInsert_cons_ne h, mapKeys_cons, mapKeys_cons]
      simp only [List.mem_cons]
      rw [ih]
      tauto

theorem mem_mapKeys_mapRemove {α : Type} (m : List (String × α))
    (j k : String) :
    j ∈ mapKeys (mapRemove m k) ↔ j ∈ mapKeys m ∧ j ≠ k := by
  simp only [mapKeys, mapRemove]
  constructor
  · intro h
    rcases List.mem_map.mp h with ⟨p, hp, rfl⟩
    have h2 := List.mem_filter.mp hp
    exact ⟨List.mem_map_of_mem _ h2.1, by simpa using h2.2⟩
  · rintro ⟨h1, h2⟩
    rcases List.mem_map.mp h1 with ⟨p, hp, rfl⟩
    exact List.mem_map_of_mem _ (List.mem_filter.mpr ⟨hp, by simpa using h2⟩)

theorem nodup_mapKeys_mapInsert {α : Type} (m : List (String × α))
    (k : String) (v : α) (h : (mapKeys m).Nodup) :
    (mapKeys (mapInsert m k v)).Nodup := by
  induction m with
  | nil => simp [mapInsert, mapKeys]
  | cons p rest ih =>
    obtain ⟨k1, v1⟩ := p
    rw [mapKeys_cons, List.nodup_cons] at h
    by_cases h1 : k1 = k
    · subst h1
      rw [mapInsert_cons_self, mapKeys_cons, List.nodup_cons]
      exact h
    · rw [mapInsert_cons_ne h1, mapKeys_cons, List.nodup_cons]
      refine ⟨?_, ih h.2⟩
      intro hmem
      rcases (mem_mapKeys_mapInsert rest k1 k v).mp hmem with h2 | h2
      · exact h.1 h2
      · exact h1 h2

theorem nodup_mapKeys_mapRemove {α : Type} (m : List (String × α))
    (k : String) (h : (mapKeys m).Nodup) :
    (mapKeys (mapRemove m k)).Nodup := by
  simp only [mapKeys, mapRemove] at h ⊢
  exact h.sublist ((List.filter_sublist m).map Prod.fst)

theorem mem_mapKeys_of_mem {α : Type} {m : List (String × α)}
    {k : String} {v : α} (h : (k, v) ∈ m) : k ∈ mapKeys m := by
  simpa [mapKeys] using List.mem_map_of_mem Prod.fst h

theorem lookup_eq_some_of_mem {α : Type} {m : List (String × α)}
    {k : String} {v : α} (hn : (mapKeys m).Nodup) (hm : (k, v) ∈ m) :
    mapLookup m k = some v := by
  induction m with
  | nil => simp at hm
  | cons p rest ih =>
    obtain ⟨k1, v1⟩ := p
    rw [mapKeys_cons, List.nodup_cons] at hn
    rcases List.mem_cons.mp hm with h | h
    · injection h with h1 h2
      subst h1
      subst h2
      exact mapLookup_cons_self
    · have hk : k1 ≠ k := by
        intro he
        subst he
        exact hn.1 (mem_mapKeys_of_mem h)
      rw [mapLookup_cons_ne hk]
      exact ih hn.2 h

theorem mem_of_lookup_eq_some {α : Type} {m : List (String × α)}
    {k : String} {v : α} (h : mapLookup m k = some v) : (k, v) ∈ m := by
  induction m with
  | nil => simp [mapLookup] at h
  | cons p rest ih =>
    obtain ⟨k1, v1⟩ := p
    by_cases h1 : k1 = k
    · subst h1
      rw [mapLookup_cons_self] at h
      injection h with h2
      subst h2
      exact List.mem_cons_self _ _
    · rw [mapLookup_cons_ne h1] at h
      exact List.mem_cons_of_mem _ (ih h)

theorem lookup_isSome_iff_mem_mapKeys {α : Type} (m : List (String × α))
    (k : String) : (mapLookup m k).isSome = true ↔ k ∈ mapKeys m := by
  induction m with
  | nil => simp [mapLookup, mapKeys]
  | cons p rest ih =>
    obtain ⟨k1, v1⟩ := p
    by_cases h1 : k1 = k
    · subst h1
      rw [mapLookup_cons_self, mapKeys_cons]
      simp
    · rw [mapLookup_cons_ne h1, mapKeys_cons]
      simp only [List.mem_cons]
      rw [ih]
      constructor
      · exact Or.inr
      · rintro (rfl | h2)
        · exact absurd rfl h1
        · exact h2

/-! ## Data model of the Discovery Operator -/

/-- `InstanceConnectivityStatus` from `device_plugin_service`
(`Online` or `Offline(Instant)`); the `Instant` becomes a `Nat`
timestamp. -/
inductive InstanceConnectivityStatus : Type
  | Online : InstanceConnectivityStatus
  | Offline : Nat → InstanceConnectivityStatus
deriving DecidableEq, Repr

/-- `InstanceInfo` from `device_plugin_service`: connectivity status plus
the broadcast sender of the owning device plugin's list-and-watch loop
(identified here by a numeric channel id). -/
structure InstanceInfo : Type where
  connectivity_status : InstanceConnectivityStatus
  list_and_watch_message_sender : Nat
deriving DecidableEq, Repr

/-- The per-configuration `InstanceMap`
(`instance-name -> InstanceInfo`). -/
abbrev InstanceMap : Type := List (String × InstanceInfo)

/-- Modelled from the spec: `SHARED_INSTANCE_OFFLINE_GRACE_PERIOD_SECS`
lives in `agent/src/util/constants.rs`, which is not under `src/`; the
spec fixes `SHARED_INSTANCE_GRACE` at its default of 300 s (5 minutes),
matching the "5 minutes" in the source comments. -/
def SHARED_INSTANCE_OFFLINE_GRACE_PERIOD_SECS : Nat := 300

/-- Modelled from the spec: `DISCOVERY_HANDLER_OFFLINE_GRACE_PERIOD_SECS`
lives in `agent/src/util/registration.rs`, which is not under `src/`; the
spec fixes `HANDLER_GRACE` at its default of 300 s (5 minutes), matching
the "5 minutes" in the source comments. -/
def DISCOVERY_HANDLER_OFFLINE_GRACE_PERIOD_SECS : Nat := 300

/-- Externally observable actions of the operator, recorded in order. -/
inductive Effect : Type
  | continueMsg : String → Effect
  | terminate : String → Effect
  | deleteInstance : String → Effect
  | buildAttempt : String → Bool → Effect
deriving DecidableEq, Repr

/-- Modelled from the spec: `terminate_device_plugin_service` (module
`device_plugin_service`, not under `src/`) shuts the device plugin down
and removes the instance from the instance map; it is idempotent
(a no-op when the instance is already gone). -/
def terminate_device_plugin_service (inst : String) (live : InstanceMap) :
    InstanceMap :=
  mapRemove live inst

/-- One iteration of the `for (inst, instance_info) in instance_map`
loop of `update_connectivity_status`
(`discovery_operator.rs` lines 416-507), acting on the live map and
emitting effects. `now` stands for `Instant::now()`, and
`now - since` for `instant.elapsed().as_secs()`. -/
def processEntry (now : Nat) (currently_visible_instances : List String)
    (is_local : Bool) (live : InstanceMap) (inst : String)
    (instance_info : InstanceInfo) : InstanceMap × List Effect :=
  if currently_visible_instances.contains inst then
    match instance_info.connectivity_status with
    | .Offline _ =>
      (mapInsert live inst
        ⟨.Online, instance_info.list_and_watch_message_sender⟩,
        [.continueMsg inst])
    | .Online => (live, [])
  else
    match instance_info.connectivity_status with
    | .Online =>
      if is_local then
        (terminate_device_plugin_service inst live,
          [.terminate inst, .deleteInstance inst])
      else
        (mapInsert live inst
          ⟨.Offline now, instance_info.list_and_watch_message_sender⟩,
          [.continueMsg inst])
    | .Offline since =>
      if now - since ≥ SHARED_INSTANCE_OFFLINE_GRACE_PERIOD_SECS then
        (terminate_device_plugin_service inst live,
          [.terminate inst, .deleteInstance inst])
      else (live, [])

/-- The loop of `update_connectivity_status` over the snapshot of the
instance map, threading the live map. -/
def updateLoop (now : Nat) (currently_visible_instances : List String)
    (is_local : Bool) (live : InstanceMap)
    (snapshot : List (String × InstanceInfo)) : InstanceMap × List Effect :=
  match snapshot with
  | [] => (live, [])
  | (inst, instance_info) :: rest =>
    let p := processEntry now currently_visible_instances is_local live
      inst instance_info
    let q := updateLoop now currently_visible_instances is_local p.1 rest
    (q.1, p.2 ++ q.2)

/-- `update_connectivity_status` (`discovery_operator.rs` lines 409-510):
snapshots the instance map and runs the per-entry loop over it. -/
def update_connectivity_status (now : Nat)
    (currently_visible_instances : List String) (is_local : Bool)
    (instance_map : InstanceMap) : InstanceMap × List Effect :=
  updateLoop now currently_visible_instances is_local instance_map
    instance_map

/-- One iteration of the loop of `check_offline_status`
(`discovery_operator.rs` lines 305-329): `Online` instances are left
alone; an instance `Offline(instant)` with
`instant.elapsed() >= SHARED_INSTANCE_OFFLINE_GRACE_PERIOD_SECS` has its
device plugin terminated and its Instance deleted. -/
def checkEntry (now : Nat) (live : InstanceMap) (inst : String)
    (instance_info : InstanceInfo) : InstanceMap × List Effect :=
  match instance_info.connectivity_status with
  | .Online => (live, [])
  | .Offline since =>
    if now - since ≥ SHARED_INSTANCE_OFFLINE_GRACE_PERIOD_SECS then
      (terminate_device_plugin_service inst live,
        [.terminate inst, .deleteInstance inst])
    else (live, [])

/-- The loop of `check_offline_status` over the snapshot of the
instance map. -/
def checkLoop (now : Nat) (live : InstanceMap)
    (snapshot : List (String × InstanceInfo)) : InstanceMap × List Effect :=
  match snapshot with
  | [] => (live, [])
  | (inst, instance_info) :: rest =>
    let p := checkEntry now live inst instance_info
    let q := checkLoop now p.1 rest
    (q.1, p.2 ++ q.2)

/-- `check_offline_status` (`discovery_operator.rs` lines 295-331),
the body of the 30-second sweeper task of `start_discovery`. -/
def check_offline_status (now : Nat) (instance_map : InstanceMap) :
    InstanceMap × List Effect :=
  checkLoop now instance_map instance_map

/-- Effects of an effect trace that concern the notifier, device plugin
or Instance record of a given instance name. -/
def effectsFor (inst : String) (effects : List Effect) : List Effect :=
  effects.filter fun e =>
    match e with
    | .continueMsg j => j = inst
    | .terminate j => j = inst
    | .deleteInstance j => j = inst
    | .buildAttempt j _ => j = inst

theorem effectsFor_append (inst : String) (a b : List Effect) :
    effectsFor inst (a ++ b) = effectsFor inst a ++ effectsFor inst b := by
  simp [effectsFor, List.filter_append]

/-! ## Per-entry characterization of `update_connectivity_status` -/

/-- The value an entry of the instance map holds after its iteration of
the `update_connectivity_status` loop (`none` when it is removed). -/
def entryResult (now : Nat) (currently_visible_instances : List String)
    (is_local : Bool) (inst : String) (instance_info : InstanceInfo) :
    Option InstanceInfo :=
  if currently_visible_instances.contains inst then
    match instance_info.connectivity_status with
    | .Offline _ =>
      some ⟨.Online, instance_info.list_and_watch_message_sender⟩
    | .Online => some instance_info
  else
    match instance_info.connectivity_status with
    | .Online =>
      if is_local then none
      else some ⟨.Offline now, instance_info.list_and_watch_message_sender⟩
    | .Offline since =>
      if now - since ≥ SHARED_INSTANCE_OFFLINE_GRACE_PERIOD_SECS then none
      else some instance_info

/-- The effects emitted for an entry during its iteration of the
`update_connectivity_status` loop. -/
def entryEffects (now : Nat) (currently_visible_instances : List String)
    (is_local : Bool) (inst : String) (instance_info : InstanceInfo) :
    List Effect :=
  if currently_visible_instances.contains inst then
    match instance_info.connectivity_status with
    | .Offline _ => [.continueMsg inst]
    | .Online => []
  else
    match instance_info.connectivity_status with
    | .Online =>
      if is_local then [.terminate inst, .deleteInstance inst]
      else [.continueMsg inst]
    | .Offline since =>
      if now - since ≥ SHARED_INSTANCE_OFFLINE_GRACE_PERIOD_SECS then
        [.terminate inst, .deleteInstance inst]
      else []

theorem processEntry_lookup_self (now : Nat) (vis : List String)
    (is_local : Bool) (live : InstanceMap) (inst : String)
    (info : InstanceInfo) (h : mapLookup live inst = some info) :
    mapLookup (processEntry now vis is_local live inst info).1 inst =
      entryResult now vis is_local inst info := by
  unfold processEntry entryResult terminate_device_plugin_service
  by_cases hv : vis.contains inst
  · simp only [hv, if_true]
    match info with
    | ⟨.Online, s⟩ => simpa using h
    | ⟨.Offline t, s⟩ => simp [lookup_mapInsert_self]
  · simp only [hv, if_false]
    match info with
    | ⟨.Online, s⟩ =>
      by_cases hl : is_local
      · simp [hl, lookup_mapRemove_self]
      · simp [hl, lookup_mapInsert_self]
    | ⟨.Offline t, s⟩ =>
      by_cases hg : now - t ≥ SHARED_INSTANCE_OFFLINE_GRACE_PERIOD_SECS
      · simp [hg, lookup_mapRemove_self]
      · simpa [hg] using h

theorem processEntry_effects (now : Nat) (vis : List String)
    (is_local : Bool) (live : InstanceMap) (inst : String)
    (info : InstanceInfo) :
    (processEntry now vis is_local live inst info).2 =
      entryEffects now vis is_local inst info := by
  unfold processEntry entryEffects
  by_cases hv : vis.contains inst
  · simp only [hv, if_true]
    match info with
    | ⟨.Online, s⟩ => rfl
    | ⟨.Offline t, s⟩ => rfl
  · simp only [hv, if_false]
    match info with
    | ⟨.Online, s⟩ =>
      by_cases hl : is_local
      · simp [hl]
      · simp [hl]
    | ⟨.Offline t, s⟩ =>
      by_cases hg : now - t ≥ SHARED_INSTANCE_OFFLINE_GRACE_PERIOD_SECS
      · simp [hg]
      · simp [hg]

theorem processEntry_lookup_other (now : Nat) (vis : List String)
    (is_local : Bool) (live : InstanceMap) (inst : String)
    (info : InstanceInfo) {j : String} (h : j ≠ inst) :
    mapLookup (processEntry now vis is_local live inst info).1 j =
      mapLookup live j := by
  unfold processEntry terminate_device_plugin_service
  by_cases hv : vis.contains inst
  · simp only [hv, if_true]
    match info with
    | ⟨.Online, s⟩ => rfl
    | ⟨.Offline t, s⟩ => simp [lookup_mapInsert_ne _ _ h]
  · simp only [hv, if_false]
    match info with
    | ⟨.Online, s⟩ =>
      by_cases hl : is_local
      · simp [hl, lookup_mapRemove_ne _ h]
      · simp [hl, lookup_mapInsert_ne _ _ h]
    | ⟨.Offline t, s⟩ =>
      by_cases hg : now - t ≥ SHARED_INSTANCE_OFFLINE_GRACE_PERIOD_SECS
      · simp [hg, lookup_mapRemove_ne _ h]
      · simp [hg]

theorem processEntry_effects_other (now : Nat) (vis : List String)
    (is_local : Bool) (live : InstanceMap) (inst : String)
    (info : InstanceInfo) {j : String} (h : j ≠ inst) :
    effectsFor j (processEntry now vis is_local live inst info).2 = [] := by
  rw [processEntry_effects]
  unfold entryEffects
  by_cases hv : vis.contains inst
  · simp only [hv, if_true]
    match info with
    | ⟨.Online, s⟩ => rfl
    | ⟨.Offline t, s⟩ => simp [effectsFor, Ne.symm h]
  · simp only [hv, if_false]
    match info with
    | ⟨.Online, s⟩ =>
      by_cases hl : is_local
      · simp [hl, effectsFor, Ne.symm h]
      · simp [hl, effectsFor, Ne.symm h]
    | ⟨.Offline t, s⟩ =>
      by_cases hg : now - t ≥ SHARED_INSTANCE_OFFLINE_GRACE_PERIOD_SECS
      · simp [hg, effectsFor, Ne.symm h]
      · simp [hg, effectsFor]

theorem effectsFor_entryEffects_self (now : Nat) (vis : List String)
    (is_local : Bool) (inst : String) (info : InstanceInfo) :
    effectsFor inst (entryEffects now vis is_local inst info) =
      entryEffects now vis is_local inst info := by
  unfold entryEffects
  by_cases hv : vis.contains inst
  · simp only [hv, if_true]
    match info with
    | ⟨.Online, s⟩ => rfl
    | ⟨.Offline t, s⟩ => simp [effectsFor]
  · simp only [hv, if_false]
    match info with
    | ⟨.Online, s⟩ =>
      by_cases hl : is_local
      · simp [hl, effectsFor]
      · simp [hl, effectsFor]
    | ⟨.Offline t, s⟩ =>
      by_cases hg : now - t ≥ SHARED_INSTANCE_OFFLINE_GRACE_PERIOD_SECS
      · simp [hg, effectsFor]
      · simp [hg, effectsFor]

theorem updateLoop_skip (now : Nat) (vis : List String) (is_local : Bool)
    (snapshot : List (String × InstanceInfo)) (live : InstanceMap)
    {j : String} (h : j ∉ mapKeys snapshot) :
    mapLookup (updateLoop now vis is_local live snapshot).1 j =
      mapLookup live j ∧
    effectsFor j (updateLoop now vis is_local live snapshot).2 = [] := by
  induction snapshot generalizing live with
  | nil => simp [updateLoop, effectsFor]
  | cons p rest ih =>
    obtain ⟨k1, i1⟩ := p
    rw [mapKeys_cons] at h
    have hne : j ≠ k1 := fun he => h (he ▸ List.mem_cons_self _ _)
    have hrest : j ∉ mapKeys rest := fun he => h (List.mem_cons_of_mem _ he)
    simp only [updateLoop]
    constructor
    · rw [(ih _ hrest).1, processEntry_lookup_other _ _ _ _ _ _ hne]
    · rw [effectsFor_append, processEntry_effects_other _ _ _ _ _ _ hne,
        (ih _ hrest).2]
      rfl

theorem updateLoop_hit (now : Nat) (vis : List String) (is_local : Bool)
    (snapshot : List (String × InstanceInfo)) (live : InstanceMap)
    {inst : String} {info : InstanceInfo}
    (hn : (mapKeys snapshot).Nodup) (hm : (inst, info) ∈ snapshot)
    (hl : mapLookup live inst = some info) :
    mapLookup (updateLoop now vis is_local live snapshot).1 inst =
      entryResult now vis is_local inst info ∧
    effectsFor inst (updateLoop now vis is_local live snapshot).2 =
      entryEffects now vis is_local inst info := by
  induction snapshot generalizing live with
  | nil => simp at hm
  | cons p rest ih =>
    obtain ⟨k1, i1⟩ := p
    rw [mapKeys_cons, List.nodup_cons] at hn
    rcases List.mem_cons.mp hm with h | h
    · injection h with h1 h2
      subst h1
      subst h2
      simp only [updateLoop]
      constructor
      · rw [(updateLoop_skip now vis is_local rest _ hn.1).1,
          processEntry_lookup_self _ _ _ _ _ _ hl]
      · rw [effectsFor_append,
          (updateLoop_skip now vis is_local rest _ hn.1).2,
          processEntry_effects, effectsFor_entryEffects_self,
          List.append_nil]
    · have hne : inst ≠ k1 := by
        intro he
        subst he
        exact hn.1 (mem_mapKeys_of_mem h)
      simp only [updateLoop]
      have hl2 : mapLookup
          (processEntry now vis is_local live k1 i1).1 inst = some info := by
        rw [processEntry_lookup_other _ _ _ _ _ _ hne, hl]
      constructor
      · exact (ih _ hn.2 h hl2).1
      · rw [effectsFor_append, processEntry_effects_other _ _ _ _ _ _ hne,
          (ih _ hn.2 h hl2).2]
        rfl

/-! ## Per-entry characterization of `check_offline_status` -/

/-- The value an entry of the instance map holds after its iteration of
the `check_offline_status` loop (`none` when it is removed). -/
def checkEntryResult (now : Nat) (instance_info : InstanceInfo) :
    Option InstanceInfo :=
  match instance_info.connectivity_status with
  | .Online => some instance_info
  | .Offline since =>
    if now - since ≥ SHARED_INSTANCE_OFFLINE_GRACE_PERIOD_SECS then none
    else some instance_info

/-- The effects emitted for an entry during its iteration of the
`check_offline_status` loop. -/
def checkEntryEffects (now : Nat) (inst : String)
    (instance_info : InstanceInfo) : List Effect :=
  match instance_info.connectivity_status with
  | .Online => []
  | .Offline since =>
    if now - since ≥ SHARED_INSTANCE_OFFLINE_GRACE_PERIOD_SECS then
      [.terminate inst, .deleteInstance inst]
    else []

theorem checkEntry_lookup_self (now : Nat) (live : InstanceMap)
    (inst : String) (info : InstanceInfo)
    (h : mapLookup live inst = some info) :
    mapLookup (checkEntry now live inst info).1 inst =
      checkEntryResult now info := by
  unfold checkEntry checkEntryResult terminate_device_plugin_service
  match info with
  | ⟨.Online, s⟩ => simpa using h
  | ⟨.Offline t, s⟩ =>
    by_cases hg : now - t ≥ SHARED_INSTANCE_OFFLINE_GRACE_PERIOD_SECS
    · simp [hg, lookup_mapRemove_self]
    · simpa [hg] using h

theorem checkEntry_effects (now : Nat) (live : InstanceMap) (inst : String)
    (info : InstanceInfo) :
    (checkEntry now live inst info).2 = checkEntryEffects now inst info := by
  unfold checkEntry checkEntryEffects
  match info with
  | ⟨.Online, s⟩ => rfl
  | ⟨.Offline t, s⟩ =>
    by_cases hg : now - t ≥ SHARED_INSTANCE_OFFLINE_GRACE_PERIOD_SECS
    · simp [hg]
    · simp [hg]

theorem checkEntry_lookup_other (now : Nat) (live : InstanceMap)
    (inst : String) (info : InstanceInfo) {j : String} (h : j ≠ inst) :
    mapLookup (checkEntry now live inst info).1 j = mapLookup live j := by
  unfold checkEntry terminate_device_plugin_service
  match info with
  | ⟨.Online, s⟩ => rfl
  | ⟨.Offline t, s⟩ =>
    by_cases hg : now - t ≥ SHARED_INSTANCE_OFFLINE_GRACE_PERIOD_SECS
    · simp [hg, lookup_mapRemove_ne _ h]
    · simp [hg]

theorem checkEntry_effects_other (now : Nat) (live : InstanceMap)
    (inst : String) (info : InstanceInfo) {j : String} (h : j ≠ inst) :
    effectsFor j (checkEntry now live inst info).2 = [] := by
  rw [checkEntry_effects]
  unfold checkEntryEffects
  match info with
  | ⟨.Online, s⟩ => rfl
  | ⟨.Offline t, s⟩ =>
    by_cases hg : now - t ≥ SHARED_INSTANCE_OFFLINE_GRACE_PERIOD_SECS
    · simp [hg, effectsFor, Ne.symm h]
    · simp [hg, effectsFor]

theorem effectsFor_checkEntryEffects_self (now : Nat) (inst : String)
    (info : InstanceInfo) :
    effectsFor inst (checkEntryEffects now inst info) =
      checkEntryEffects now inst info := by
  unfold checkEntryEffects
  match info with
  | ⟨.Online, s⟩ => rfl
  | ⟨.Offline t, s⟩ =>
    by_cases hg : now - t ≥ SHARED_INSTANCE_OFFLINE_GRACE_PERIOD_SECS
    · simp [hg, effectsFor]
    · simp [hg, effectsFor]

theorem checkLoop_skip (now : Nat)
    (snapshot : List (String × InstanceInfo)) (live : InstanceMap)
    {j : String} (h : j ∉ mapKeys snapshot) :
    mapLookup (checkLoop now live snapshot).1 j = mapLookup live j ∧
    effectsFor j (checkLoop now live snapshot).2 = [] := by
  induction snapshot generalizing live with
  | nil => simp [checkLoop, effectsFor]
  | cons p rest ih =>
    obtain ⟨k1, i1⟩ := p
    rw [mapKeys_cons] at h
    have hne : j ≠ k1 := fun he => h (he ▸ List.mem_cons_self _ _)
    have hrest : j ∉ mapKeys rest := fun he => h (List.mem_cons_of_mem _ he)
    simp only [checkLoop]
    constructor
    · rw [(ih _ hrest).1, checkEntry_lookup_other _ _ _ _ hne]
    · rw [effectsFor_append, checkEntry_effects_other _ _ _ _ hne,
        (ih _ hrest).2]
      rfl

theorem checkLoop_hit (now : Nat)
    (snapshot : List (String × InstanceInfo)) (live : InstanceMap)
    {inst : String} {info : InstanceInfo}
    (hn : (mapKeys snapshot).Nodup) (hm : (inst, info) ∈ snapshot)
    (hl : mapLookup live inst = some info) :
    mapLookup (checkLoop now live snapshot).1 inst =
      checkEntryResult now info ∧
    effectsFor inst (checkLoop now live snapshot).2 =
      checkEntryEffects now inst info := by
  induction snapshot generalizing live with
  | nil => simp at hm
  | cons p rest ih =>
    obtain ⟨k1, i1⟩ := p
    rw [mapKeys_cons, List.nodup_cons] at hn
    rcases List.mem_cons.mp hm with h | h
    · injection h with h1 h2
      subst h1
      subst h2
      simp only [checkLoop]
      constructor
      · rw [(checkLoop_skip now rest _ hn.1).1,
          checkEntry_lookup_self _ _ _ _ hl]
      · rw [effectsFor_append, (checkLoop_skip now rest _ hn.1).2,
          checkEntry_effects, effectsFor_checkEntryEffects_self,
          List.append_nil]
    · have hne : inst ≠ k1 := by
        intro he
        subst he
        exact hn.1 (mem_mapKeys_of_mem h)
      simp only [checkLoop]
      have hl2 : mapLookup (checkEntry now live k1 i1).1 inst = some info := by
        rw [checkEntry_lookup_other _ _ _ _ hne, hl]
      constructor
      · exact (ih _ hn.2 h hl2).1
      · rw [effectsFor_append, checkEntry_effects_other _ _ _ _ hne,
          (ih _ hn.2 h hl2).2]
        rfl

/-! ## Where terminate effects come from -/

theorem terminate_mem_entryEffects {now : Nat} {vis : List String}
    {is_local : Bool} {inst j : String} {info : InstanceInfo}
    (h : Effect.terminate j ∈ entryEffects now vis is_local inst info) :
    j = inst ∧ vis.contains inst = false ∧
      ((info.connectivity_status = .Online ∧ is_local = true) ∨
        ∃ s, info.connectivity_status = .Offline s ∧
          now - s ≥ SHARED_INSTANCE_OFFLINE_GRACE_PERIOD_SECS) := by
  unfold entryEffects at h
  cases hv : vis.contains inst with
  | true =>
    rw [hv, if_pos rfl] at h
    cases hstat : info.connectivity_status with
    | Online =>
      rw [hstat] at h
      simp at h
    | Offline t =>
      rw [hstat] at h
      simp at h
  | false =>
    rw [hv, if_neg (by simp)] at h
    cases hstat : info.connectivity_status with
    | Online =>
      rw [hstat] at h
      cases hl : is_local with
      | true =>
        simp [hl] at h
        exact ⟨h, rfl, Or.inl ⟨rfl, rfl⟩⟩
      | false =>
        simp [hl] at h
    | Offline t =>
      rw [hstat] at h
      by_cases hg : now - t ≥ SHARED_INSTANCE_OFFLINE_GRACE_PERIOD_SECS
      · simp [hg] at h
        exact ⟨h, rfl, Or.inr ⟨t, rfl, hg⟩⟩
      · simp [hg] at h

theorem terminate_mem_updateLoop {now : Nat} {vis : List String}
    {is_local : Bool} {j : String}
    {snapshot : List (String × InstanceInfo)} {live : InstanceMap}
    (h : Effect.terminate j ∈
      (updateLoop now vis is_local live snapshot).2) :
    ∃ info, (j, info) ∈ snapshot ∧ vis.contains j = false ∧
      ((info.connectivity_status = .Online ∧ is_local = true) ∨
        ∃ s, info.connectivity_status = .Offline s ∧
          now - s ≥ SHARED_INSTANCE_OFFLINE_GRACE_PERIOD_SECS) := by
  induction snapshot generalizing live with
  | nil => simp [updateLoop] at h
  | cons p rest ih =>
    obtain ⟨k1, i1⟩ := p
    simp only [updateLoop] at h
    rcases List.mem_append.mp h with h1 | h1
    · rw [processEntry_effects] at h1
      obtain ⟨rfl, hv, hcase⟩ := terminate_mem_entryEffects h1
      exact ⟨i1, List.mem_cons_self _ _, hv, hcase⟩
    · obtain ⟨info, hmem, hv, hcase⟩ := ih h1
      exact ⟨info, List.mem_cons_of_mem _ hmem, hv, hcase⟩

theorem terminate_mem_checkEntryEffects {now : Nat} {inst j : String}
    {info : InstanceInfo}
    (h : Effect.terminate j ∈ checkEntryEffects now inst info) :
    j = inst ∧ ∃ s, info.connectivity_status = .Offline s ∧
      now - s ≥ SHARED_INSTANCE_OFFLINE_GRACE_PERIOD_SECS := by
  unfold checkEntryEffects at h
  cases hstat : info.connectivity_status with
  | Online =>
    rw [hstat] at h
    simp at h
  | Offline t =>
    rw [hstat] at h
    by_cases hg : now - t ≥ SHARED_INSTANCE_OFFLINE_GRACE_PERIOD_SECS
    · simp [hg] at h
      exact ⟨h, t, rfl, hg⟩
    · simp [hg] at h

theorem terminate_mem_checkLoop {now : Nat} {j : String}
    {snapshot : List (String × InstanceInfo)} {live : InstanceMap}
    (h : Effect.terminate j ∈ (checkLoop now live snapshot).2) :
    ∃ info s, (j, info) ∈ snapshot ∧
      info.connectivity_status = .Offline s ∧
      now - s ≥ SHARED_INSTANCE_OFFLINE_GRACE_PERIOD_SECS := by
  induction snapshot generalizing live with
  | nil => simp [checkLoop] at h
  | cons p rest ih =>
    obtain ⟨k1, i1⟩ := p
    simp only [checkLoop] at h
    rcases List.mem_append.mp h with h1 | h1
    · rw [checkEntry_effects] at h1
      obtain ⟨rfl, s, hs, hg⟩ := terminate_mem_checkEntryEffects h1
      exact ⟨i1, s, List.mem_cons_self _ _, hs, hg⟩
    · obtain ⟨info, s, hmem, hs, hg⟩ := ih h1
      exact ⟨info, s, List.mem_cons_of_mem _ hmem, hs, hg⟩

/-! ## Claim C1 -/

/-- C1: in `update_connectivity_status`, for every instance of the
snapshot of the instance map: if visible and `Offline(_)`, the status is
set to `Online` and exactly one `Continue` is pushed to its notifier; if
visible and `Online`, the entry is left unchanged with no notification;
if absent from the visible set while `Online` and not local, the status
is set to `Offline(now)` and exactly one `Continue` is pushed. -/
theorem C1_update_connectivity_status_cases (now : Nat) (vis : List String)
    (is_local : Bool) (m : InstanceMap) (inst : String) (info : InstanceInfo)
    (s : Nat) (hn : (mapKeys m).Nodup) (hm : (inst, info) ∈ m) :
    ((vis.contains inst = true ∧
        info.connectivity_status = .Offline s) →
      mapLookup (update_connectivity_status now vis is_local m).1 inst =
        some ⟨.Online, info.list_and_watch_message_sender⟩ ∧
      effectsFor inst (update_connectivity_status now vis is_local m).2 =
        [.continueMsg inst]) ∧
    ((vis.contains inst = true ∧ info.connectivity_status = .Online) →
      mapLookup (update_connectivity_status now vis is_local m).1 inst =
        some info ∧
      effectsFor inst (update_connectivity_status now vis is_local m).2 =
        []) ∧
    ((vis.contains inst = false ∧ info.connectivity_status = .Online ∧
        is_local = false) →
      mapLookup (update_connectivity_status now vis is_local m).1 inst =
        some ⟨.Offline now, info.list_and_watch_message_sender⟩ ∧
      effectsFor inst (update_connectivity_status now vis is_local m).2 =
        [.continueMsg inst]) := by
  have hhit := updateLoop_hit now vis is_local m m hn hm
    (lookup_eq_some_of_mem hn hm)
  rw [show update_connectivity_status now vis is_local m =
    updateLoop now vis is_local m m from rfl]
  refine ⟨?_, ?_, ?_⟩
  · rintro ⟨hv, hs⟩
    rw [hhit.1, hhit.2]
    unfold entryResult entryEffects
    rw [hv, hs]
    simp
  · rintro ⟨hv, hs⟩
    rw [hhit.1, hhit.2]
    unfold entryResult entryEffects
    rw [hv, hs]
    simp
  · rintro ⟨hv, hs, hl⟩
    rw [hhit.1, hhit.2]
    unfold entryResult entryEffects
    rw [hv, hs, hl]
    simp

/-- Witness for C1 at a concrete input: a three-entry instance map, the
visible set covering the first two entries, a non-local reconcile. -/
theorem C1_witness :
    (mapLookup (update_connectivity_status 10 ["a", "b"] false
        [("a", ⟨.Offline 0, 5⟩), ("b", ⟨.Online, 6⟩),
          ("c", ⟨.Online, 7⟩)]).1 "a" = some ⟨.Online, 5⟩ ∧
      effectsFor "a" (update_connectivity_status 10 ["a", "b"] false
        [("a", ⟨.Offline 0, 5⟩), ("b", ⟨.Online, 6⟩),
          ("c", ⟨.Online, 7⟩)]).2 = [.continueMsg "a"]) ∧
    (mapLookup (update_connectivity_status 10 ["a", "b"] false
        [("a", ⟨.Offline 0, 5⟩), ("b", ⟨.Online, 6⟩),
          ("c", ⟨.Online, 7⟩)]).1 "b" = some ⟨.Online, 6⟩ ∧
      effectsFor "b" (update_connectivity_status 10 ["a", "b"] false
        [("a", ⟨.Offline 0, 5⟩), ("b", ⟨.Online, 6⟩),
          ("c", ⟨.Online, 7⟩)]).2 = []) ∧
    (mapLookup (update_connectivity_status 10 ["a", "b"] false
        [("a", ⟨.Offline 0, 5⟩), ("b", ⟨.Online, 6⟩),
          ("c", ⟨.Online, 7⟩)]).1 "c" = some ⟨.Offline 10, 7⟩ ∧
      effectsFor "c" (update_connectivity_status 10 ["a", "b"] false
        [("a", ⟨.Offline 0, 5⟩), ("b", ⟨.Online, 6⟩),
          ("c", ⟨.Online, 7⟩)]).2 = [.continueMsg "c"]) :=
  ⟨(C1_update_connectivity_status_cases 10 ["a", "b"] false _ "a"
      ⟨.Offline 0, 5⟩ 0 (by decide) (by decide)).1 ⟨by decide, rfl⟩,
    (C1_update_connectivity_status_cases 10 ["a", "b"] false _ "b"
      ⟨.Online, 6⟩ 0 (by decide) (by decide)).2.1 ⟨by decide, rfl⟩,
    (C1_update_connectivity_status_cases 10 ["a", "b"] false _ "c"
      ⟨.Online, 7⟩ 0 (by decide) (by decide)).2.2 ⟨by decide, rfl, rfl⟩⟩

/-! ## Claim C10 -/

/-- C10: while a shared instance remains absent from the visible set and
its status is `Offline(since)` with elapsed time under the grace period,
`update_connectivity_status` leaves its `InstanceInfo` entirely
unchanged (the `since` timestamp is not refreshed) and pushes no
message to its notifier; the removal deadline is therefore measured
from the first disappearance. -/
theorem C10_offline_within_grace_frame (now : Nat) (vis : List String)
    (is_local : Bool) (m : InstanceMap) (inst : String)
    (info : InstanceInfo) (since : Nat) (hn : (mapKeys m).Nodup)
    (hm : (inst, info) ∈ m) (hv : vis.contains inst = false)
    (hs : info.connectivity_status = .Offline since)
    (hg : now - since < SHARED_INSTANCE_OFFLINE_GRACE_PERIOD_SECS) :
    mapLookup (update_connectivity_status now vis is_local m).1 inst =
      some info ∧
    effectsFor inst (update_connectivity_status now vis is_local m).2 =
      [] := by
  have hhit := updateLoop_hit now vis is_local m m hn hm
    (lookup_eq_some_of_mem hn hm)
  rw [show update_connectivity_status now vis is_local m =
    updateLoop now vis is_local m m from rfl]
  rw [hhit.1, hhit.2]
  unfold entryResult entryEffects
  rw [hv, hs]
  simp [Nat.not_le.mpr hg]

/-- Witness for C10: the instance disappeared at time 0, the reconcile
happens at time 100 (within the 300 s grace), its entry is untouched. -/
theorem C10_witness :
    mapLookup (update_connectivity_status 100 [] false
      [("i", ⟨.Offline 0, 3⟩)]).1 "i" = some ⟨.Offline 0, 3⟩ ∧
    effectsFor "i" (update_connectivity_status 100 [] false
      [("i", ⟨.Offline 0, 3⟩)]).2 = [] :=
  C10_offline_within_grace_frame 100 [] false _ "i" ⟨.Offline 0, 3⟩ 0
    (by decide) (by decide) (by decide) rfl (by decide)

/-! ## Claim C4 -/

/-- C4 counterexample: a reconcile with `is_local = true` does not
remove every instance absent from the visible set. An instance whose
status is `Offline(0)` at time 10 (absent from the visible set) is left
in the map, untouched and with no terminate or delete effect, because
the `Offline` branch of `update_connectivity_status` only removes after
the grace period even when `is_local` is true. -/
theorem C4_counterexample :
    update_connectivity_status 10 [] true [("i", ⟨.Offline 0, 1⟩)] =
      ([("i", ⟨.Offline 0, 1⟩)], []) := by
  decide

/-- C4 (amended): for every reconcile with `is_local = true`, every
instance that is `Online` in the instance map and absent from the
visible set is removed — terminated and deleted — before
`update_connectivity_status` returns, immediately and with no grace
period; instances already `Offline` follow the grace-period rule
instead. -/
theorem C4_local_online_immediate_removal (now : Nat) (vis : List String)
    (m : InstanceMap) (inst : String) (info : InstanceInfo)
    (hn : (mapKeys m).Nodup) (hm : (inst, info) ∈ m)
    (hv : vis.contains inst = false)
    (hs : info.connectivity_status = .Online) :
    mapLookup (update_connectivity_status now vis true m).1 inst = none ∧
    effectsFor inst (update_connectivity_status now vis true m).2 =
      [.terminate inst, .deleteInstance inst] := by
  have hhit := updateLoop_hit now vis true m m hn hm
    (lookup_eq_some_of_mem hn hm)
  rw [show update_connectivity_status now vis true m =
    updateLoop now vis true m m from rfl]
  rw [hhit.1, hhit.2]
  unfold entryResult entryEffects
  rw [hv, hs]
  simp

/-- Witness for C4 (amended) at time 0: removal happens immediately,
with no grace period elapsed at all. -/
theorem C4_witness :
    mapLookup (update_connectivity_status 0 [] true
      [("i", ⟨.Online, 1⟩)]).1 "i" = none ∧
    effectsFor "i" (update_connectivity_status 0 [] true
      [("i", ⟨.Online, 1⟩)]).2 = [.terminate "i", .deleteInstance "i"] :=
  C4_local_online_immediate_removal 0 [] _ "i" ⟨.Online, 1⟩
    (by decide) (by decide) (by decide) rfl

/-! ## Claim C2 -/

/-- C2 counterexample: `check_offline_status` does not re-apply the
`update_connectivity_status` rule with an empty visible set. At time 5,
a map holding one `Online` instance is returned completely unchanged
with no effects: the instance is neither marked for removal (as the
rule would for a local instance) nor set `Offline(now)` with a
`Continue` pushed (as the rule would for a shared one); the sweeper
simply skips `Online` instances. -/
theorem C2_counterexample :
    check_offline_status 5 [("i", ⟨.Online, 7⟩)] =
      ([("i", ⟨.Online, 7⟩)], []) := by
  decide

/-- C2 (amended): the periodic sweeper `check_offline_status` leaves
every `Online` instance untouched (regardless of locality, with no
notification), and removes — device plugin terminated and Instance
deleted — every instance that has been `Offline` for at least
`SHARED_INSTANCE_OFFLINE_GRACE_PERIOD_SECS`, leaving instances offline
for less than the grace period untouched. -/
theorem C2_check_offline_status_cases (now : Nat) (m : InstanceMap)
    (inst : String) (info : InstanceInfo) (s : Nat)
    (hn : (mapKeys m).Nodup) (hm : (inst, info) ∈ m) :
    (info.connectivity_status = .Online →
      mapLookup (check_offline_status now m).1 inst = some info ∧
      effectsFor inst (check_offline_status now m).2 = []) ∧
    ((info.connectivity_status = .Offline s ∧
        now - s ≥ SHARED_INSTANCE_OFFLINE_GRACE_PERIOD_SECS) →
      mapLookup (check_offline_status now m).1 inst = none ∧
      effectsFor inst (check_offline_status now m).2 =
        [.terminate inst, .deleteInstance inst]) ∧
    ((info.connectivity_status = .Offline s ∧
        now - s < SHARED_INSTANCE_OFFLINE_GRACE_PERIOD_SECS) →
      mapLookup (check_offline_status now m).1 inst = some info ∧
      effectsFor inst (check_offline_status now m).2 = []) := by
  have hhit := checkLoop_hit now m m hn hm (lookup_eq_some_of_mem hn hm)
  rw [show check_offline_status now m = checkLoop now m m from rfl]
  refine ⟨?_, ?_, ?_⟩
  · intro hs
    rw [hhit.1, hhit.2]
    unfold checkEntryResult checkEntryEffects
    rw [hs]
    simp
  · rintro ⟨hs, hg⟩
    rw [hhit.1, hhit.2]
    unfold checkEntryResult checkEntryEffects
    rw [hs]
    simp [hg]
  · rintro ⟨hs, hg⟩
    rw [hhit.1, hhit.2]
    unfold checkEntryResult checkEntryEffects
    rw [hs]
    simp [Nat.not_le.mpr hg]

/-- Witness for C2 (amended): at time 1000, an `Online` instance is
kept, an instance offline since time 0 is removed with terminate and
delete effects, and one offline since 900 is kept. -/
theorem C2_witness :
    (mapLookup (check_offline_status 1000
        [("a", ⟨.Online, 1⟩), ("b", ⟨.Offline 0, 2⟩),
          ("c", ⟨.Offline 900, 3⟩)]).1 "a" = some ⟨.Online, 1⟩ ∧
      effectsFor "a" (check_offline_status 1000
        [("a", ⟨.Online, 1⟩), ("b", ⟨.Offline 0, 2⟩),
          ("c", ⟨.Offline 900, 3⟩)]).2 = []) ∧
    (mapLookup (check_offline_status 1000
        [("a", ⟨.Online, 1⟩), ("b", ⟨.Offline 0, 2⟩),
          ("c", ⟨.Offline 900, 3⟩)]).1 "b" = none ∧
      effectsFor "b" (check_offline_status 1000
        [("a", ⟨.Online, 1⟩), ("b", ⟨.Offline 0, 2⟩),
          ("c", ⟨.Offline 900, 3⟩)]).2 =
        [.terminate "b", .deleteInstance "b"]) ∧
    (mapLookup (check_offline_status 1000
        [("a", ⟨.Online, 1⟩), ("b", ⟨.Offline 0, 2⟩),
          ("c", ⟨.Offline 900, 3⟩)]).1 "c" = some ⟨.Offline 900, 3⟩ ∧
      effectsFor "c" (check_offline_status 1000
        [("a", ⟨.Online, 1⟩), ("b", ⟨.Offline 0, 2⟩),
          ("c", ⟨.Offline 900, 3⟩)]).2 = []) :=
  ⟨(C2_check_offline_status_cases 1000 _ "a" ⟨.Online, 1⟩ 0
      (by decide) (by decide)).1 rfl,
    (C2_check_offline_status_cases 1000 _ "b" ⟨.Offline 0, 2⟩ 0
      (by decide) (by decide)).2.1 ⟨rfl, by decide⟩,
    (C2_check_offline_status_cases 1000 _ "c" ⟨.Offline 900, 3⟩ 900
      (by decide) (by decide)).2.2 ⟨rfl, by decide⟩⟩

/-! ## Claim C3 -/

/-- C3: whenever a non-local reconcile
(`update_connectivity_status` with `is_local = false`) or the sweeper
(`check_offline_status`) terminates and deletes an instance, that
instance's status in the pre-state map was `Offline(since)` with
elapsed time at least `SHARED_INSTANCE_OFFLINE_GRACE_PERIOD_SECS`
(300 s): a shared instance is only ever removed after its full offline
grace period. -/
theorem C3_shared_removal_after_grace (now : Nat) (vis : List String)
    (m : InstanceMap) (inst : String)
    (h : Effect.terminate inst ∈
        (update_connectivity_status now vis false m).2 ∨
      Effect.terminate inst ∈ (check_offline_status now m).2) :
    ∃ info s, (inst, info) ∈ m ∧
      info.connectivity_status = .Offline s ∧
      now - s ≥ SHARED_INSTANCE_OFFLINE_GRACE_PERIOD_SECS := by
  rcases h with h | h
  · obtain ⟨info, hmem, hv, hcase⟩ := terminate_mem_updateLoop h
    rcases hcase with ⟨hon, hfalse⟩ | ⟨s, hs, hg⟩
    · exact absurd hfalse (by simp)
    · exact ⟨info, s, hmem, hs, hg⟩
  · obtain ⟨info, s, hmem, hs, hg⟩ := terminate_mem_checkLoop h
    exact ⟨info, s, hmem, hs, hg⟩

/-- Witness for C3: at time 1000, the reconcile with an empty visible
set terminates the instance offline since time 0, and its pre-state was
indeed offline past the grace period. -/
theorem C3_witness :
    Effect.terminate "i" ∈
      (update_connectivity_status 1000 [] false
        [("i", ⟨.Offline 0, 2⟩)]).2 ∧
    ∃ info s, ("i", info) ∈
        ([("i", ⟨.Offline 0, 2⟩)] : InstanceMap) ∧
      info.connectivity_status = .Offline s ∧
      1000 - s ≥ SHARED_INSTANCE_OFFLINE_GRACE_PERIOD_SECS :=
  ⟨by decide,
    C3_shared_removal_after_grace 1000 [] _ "i" (Or.inl (by decide))⟩

/-! ## The instance digest (BLAKE2b with a 3-byte output)

`inner_generate_instance_digest` hashes with `VarBlake2b::new(3)` from
the `blake2` crate: unkeyed BLAKE2b with a 3-byte digest. The hash is
embedded below from the BLAKE2 specification (RFC 7693): 64-bit words
are `Nat`s reduced mod `2 ^ 64` at every addition. -/

/-- The BLAKE2b initialization vector (the eight 64-bit words
0x6a09e667f3bcc908 ... 0x5be0cd19137e2179, written in decimal). -/
def IV : List Nat :=
  [7640891576956012808, 13503953896175478587, 4354685564936845355,
   11912009170470909681, 5840696475078001361, 11170449401992604703,
   2270897969802886507, 6620516959819538809]

/-- The BLAKE2 message schedule. -/
def SIGMA : List (List Nat) :=
  [[0, 1, 2, 3, 4, 5, 6, 7, 8, 9, 10, 11, 12, 13, 14, 15],
   [14, 10, 4, 8, 9, 15, 13, 6, 1, 12, 0, 2, 11, 7, 5, 3],
   [11, 8, 12, 0, 5, 2, 15, 13, 10, 14, 3, 6, 7, 1, 9, 4],
   [7, 9, 3, 1, 13, 12, 11, 14, 2, 6, 5, 10, 4, 0, 15, 8],
   [9, 0, 5, 7, 2, 4, 10, 15, 14, 1, 11, 12, 6, 8, 3, 13],
   [2, 12, 6, 10, 0, 11, 8, 3, 4, 13, 7, 5, 15, 14, 1, 9],
   [12, 5, 1, 15, 14, 13, 4, 10, 0, 7, 6, 3, 9, 2, 8, 11],
   [13, 11, 7, 14, 12, 1, 3, 9, 5, 0, 15, 4, 8, 6, 2, 10],
   [6, 15, 14, 9, 11, 3, 0, 8, 12, 2, 13, 7, 1, 4, 10, 5],
   [10, 2, 8, 4, 7, 6, 1, 5, 15, 11, 9, 14, 3, 12, 13, 0]]

/-- 64-bit right rotation on `Nat`s below `2 ^ 64`. -/
def rotr64 (x n : Nat) : Nat := ((x % 2 ^ n) <<< (64 - n)) ||| (x >>> n)

/-- The BLAKE2b G mixing function on the 16-word work vector. -/
def gMix (v : List Nat) (a b c d x y : Nat) : List Nat :=
  let a1 := (v.getD a 0 + v.getD b 0 + x) % 2 ^ 64
  let d1 := rotr64 (v.getD d 0 ^^^ a1) 32
  let c1 := (v.getD c 0 + d1) % 2 ^ 64
  let b1 := rotr64 (v.getD b 0 ^^^ c1) 24
  let a2 := (a1 + b1 + y) % 2 ^ 64
  let d2 := rotr64 (d1 ^^^ a2) 16
  let c2 := (c1 + d2) % 2 ^ 64
  let b2 := rotr64 (b1 ^^^ c2) 63
  (((v.set a a2).set b b2).set c c2).set d d2

/-- One BLAKE2b round: eight G applications driven by the schedule. -/
def blakeRound (m v : List Nat) (r : Nat) : List Nat :=
  let s := SIGMA.getD (r % 10) []
  let g := fun (v : List Nat) (a b c d i j : Nat) =>
    gMix v a b c d (m.getD (s.getD i 0) 0) (m.getD (s.getD j 0) 0)
  let v := g v 0 4 8 12 0 1
  let v := g v 1 5 9 13 2 3
  let v := g v 2 6 10 14 4 5
  let v := g v 3 7 11 15 6 7
  let v := g v 0 5 10 15 8 9
  let v := g v 1 6 11 12 10 11
  let v := g v 2 7 8 13 12 13
  g v 3 4 9 14 14 15

/-- The BLAKE2b compression function (12 rounds). -/
def compress (h m : List Nat) (t : Nat) (last : Bool) : List Nat :=
  let v0 := h ++ IV
  let v1 := v0.set 12 (v0.getD 12 0 ^^^ (t % 2 ^ 64))
  let v2 := v1.set 13 (v1.getD 13 0 ^^^ (t / 2 ^ 64))
  let v3 := if last then v2.set 14 (v2.getD 14 0 ^^^ (2 ^ 64 - 1)) else v2
  let vf := (List.range 12).foldl (fun v r => blakeRound m v r) v3
  (List.range 8).map fun i => h.getD i 0 ^^^ vf.getD i 0 ^^^ vf.getD (i + 8) 0

/-- Fuel-driven list chunking helper. -/
def chunksAux {α : Type} (n : Nat) : Nat → List α → List (List α)
  | 0, _ => []
  | _, [] => []
  | fuel + 1, l => l.take n :: chunksAux n fuel (l.drop n)

/-- Split a list into chunks of `n` elements (last chunk possibly
short). -/
def chunks {α : Type} (n : Nat) (l : List α) : List (List α) :=
  chunksAux n l.length l

/-- Little-endian byte list to word. -/
def bytesToWord (bs : List Nat) : Nat :=
  bs.foldr (fun b acc => b + 256 * acc) 0

/-- A 128-byte message block, zero-padded, as 16 little-endian words. -/
def wordsOfBlock (b : List Nat) : List Nat :=
  (chunks 8 (b ++ List.replicate (128 - b.length) 0)).map bytesToWord

/-- Feed the message blocks through the compression function; the final
block is flagged and counted by its true length. -/
def blakeBlocks (h0 : List Nat) (t : Nat) : List (List Nat) → List Nat
  | [] => h0
  | [b] => compress h0 (wordsOfBlock b) (t + b.length) true
  | b :: rest => blakeBlocks (compress h0 (wordsOfBlock b) (t + 128) false)
      (t + 128) rest

/-- Little-endian serialization of one 64-bit word. -/
def word64Bytes (w : Nat) : List Nat :=
  (List.range 8).map fun i => (w >>> (8 * i)) % 256

/-- Unkeyed BLAKE2b with an `outLen`-byte digest: the parameter block
contributes `0x01010000 xor outLen` to `h[0]`; an empty input is one
zero block. -/
def blake2b (outLen : Nat) (input : List Nat) : List Nat :=
  let h0 := IV.set 0 (IV.getD 0 0 ^^^ (0x01010000 ^^^ outLen))
  let blocks := if input.isEmpty then [[]] else chunks 128 input
  (((blakeBlocks h0 0 blocks).map word64Bytes).flatten).take outLen

/-- The sixteen lowercase hexadecimal digits, `0`-`9` then `a`-`f`. -/
def hexCharList : List Char :=
  (List.range 10).map (fun n => Char.ofNat (48 + n)) ++
    (List.range 6).map (fun n => Char.ofNat (97 + n))

/-- One byte rendered as Rust's `format!("{:02x}", byte)`. -/
def byteToHex (b : Nat) : List Char :=
  [hexCharList.getD (b / 16 % 16) '0', hexCharList.getD (b % 16) '0']

/-- A byte string rendered in lowercase hex, two digits per byte. -/
def bytesToHex (bs : List Nat) : String :=
  ⟨bs.flatMap byteToHex⟩

/-- The UTF-8 bytes of a character (Rust strings are hashed as their
UTF-8 byte sequence). -/
def utf8Bytes (c : Char) : List Nat :=
  let n := c.toNat
  if n < 0x80 then [n]
  else if n < 0x800 then
    [0xC0 ||| (n >>> 6), 0x80 ||| (n &&& 0x3F)]
  else if n < 0x10000 then
    [0xE0 ||| (n >>> 12), 0x80 ||| ((n >>> 6) &&& 0x3F), 0x80 ||| (n &&& 0x3F)]
  else
    [0xF0 ||| (n >>> 18), 0x80 ||| ((n >>> 12) &&& 0x3F),
      0x80 ||| ((n >>> 6) &&& 0x3F), 0x80 ||| (n &&& 0x3F)]

/-- The UTF-8 bytes of a string. -/
def strBytes (s : String) : List Nat :=
  s.data.flatMap utf8Bytes

/-- `inner_generate_instance_digest`
(`discovery_operator.rs` lines 736-761): for unshared devices the node
name (the value of `AGENT_NODE_NAME`, passed here as `node_name`) is
appended to the id before hashing; the result is the 3-byte BLAKE2b
digest in lowercase hex. -/
def inner_generate_instance_digest (id_to_digest : String) (shared : Bool)
    (node_name : String) : String :=
  let id2 := if !shared then id_to_digest ++ node_name else id_to_digest
  bytesToHex (blake2b 3 (strBytes id2))

theorem getD_mem_or {α : Type} (l : List α) (i : Nat) (d : α) :
    l.getD i d ∈ l ∨ l.getD i d = d := by
  induction l generalizing i with
  | nil => right; simp [List.getD]
  | cons a rest ih =>
    cases i with
    | zero => left; simp [List.getD]
    | succ n =>
      rcases ih n with h | h
      · left
        simpa [List.getD] using List.mem_cons_of_mem a (by simpa using h)
      · right
        simpa [List.getD] using h

theorem hexCharList_getD_mem (i : Nat) :
    hexCharList.getD i '0' ∈ hexCharList := by
  rcases getD_mem_or hexCharList i '0' with h | h
  · exact h
  · rw [h]
    decide

theorem compress_length (h m : List Nat) (t : Nat) (last : Bool) :
    (compress h m t last).length = 8 := by
  simp [compress]

theorem blakeBlocks_length (bs : List (List Nat)) :
    ∀ (h0 : List Nat) (t : Nat), h0.length = 8 →
      (blakeBlocks h0 t bs).length = 8 := by
  induction bs with
  | nil =>
    intro h0 t hh
    simpa [blakeBlocks] using hh
  | cons b rest ih =>
    intro h0 t hh
    cases rest with
    | nil => simp [blakeBlocks, compress_length]
    | cons b2 r2 =>
      rw [show blakeBlocks h0 t (b :: b2 :: r2) =
        blakeBlocks (compress h0 (wordsOfBlock b) (t + 128) false)
          (t + 128) (b2 :: r2) from rfl]
      exact ih _ _ (compress_length _ _ _ _)

theorem word64Bytes_length (w : Nat) : (word64Bytes w).length = 8 := by
  simp [word64Bytes]

theorem flatten_word64Bytes_length (l : List Nat) :
    ((l.map word64Bytes).flatten).length = 8 * l.length := by
  induction l with
  | nil => simp
  | cons a rest ih =>
    simp [ih, word64Bytes_length, Nat.mul_succ, Nat.add_comm]

theorem blake2b_3_length (input : List Nat) :
    (blake2b 3 input).length = 3 := by
  unfold blake2b
  rw [List.length_take, flatten_word64Bytes_length,
    blakeBlocks_length _ _ _ (by simp [IV])]
  decide

theorem flatMap_byteToHex_length (bs : List Nat) :
    (bs.flatMap byteToHex).length = 2 * bs.length := by
  induction bs with
  | nil => simp
  | cons b rest ih =>
    simp [byteToHex, ih, Nat.mul_succ, Nat.add_comm]
    omega

theorem mem_bytesToHex_hex {bs : List Nat} {c : Char}
    (h : c ∈ (bytesToHex bs).data) : c ∈ hexCharList := by
  have h2 : c ∈ bs.flatMap byteToHex := h
  rcases List.mem_flatMap.mp h2 with ⟨b, _, hc⟩
  unfold byteToHex at hc
  rcases List.mem_cons.mp hc with h3 | h3
  · rw [h3]
    exact hexCharList_getD_mem _
  · rcases List.mem_cons.mp h3 with h4 | h4
    · rw [h4]
      exact hexCharList_getD_mem _
    · simp at h4

/-! ## Claim C7 -/

set_option maxRecDepth 100000 in
/-- C7: `inner_generate_instance_digest` always returns exactly 6
characters, all lowercase hexadecimal digits; the result is the 3-byte
BLAKE2b digest of the id concatenated with the empty string when shared
and with the node name (`AGENT_NODE_NAME`) when unshared; it is a pure
function (hence deterministic); for `shared = true` the digest does not
depend on the node name at all; and on the concrete device id `video1`
the node names `node-a` and `node-b` give distinct digests, witnessing
the high-probability distinctness of unshared digests across nodes. -/
theorem C7_instance_digest_properties :
    (∀ (id node : String) (shared : Bool),
      (inner_generate_instance_digest id shared node).length = 6 ∧
      ∀ c ∈ (inner_generate_instance_digest id shared node).data,
        c ∈ hexCharList) ∧
    (∀ (id node : String) (shared : Bool),
      inner_generate_instance_digest id shared node =
        bytesToHex (blake2b 3
          (strBytes (if shared then id else id ++ node)))) ∧
    (∀ (id node1 node2 : String),
      inner_generate_instance_digest id true node1 =
        inner_generate_instance_digest id true node2) ∧
    inner_generate_instance_digest "video1" false "node-a" ≠
      inner_generate_instance_digest "video1" false "node-b" := by
  refine ⟨?_, ?_, ?_, by decide⟩
  · intro id node shared
    constructor
    · have h6 := flatMap_byteToHex_length
        (blake2b 3 (strBytes (if (!shared) = true then id ++ node else id)))
      rw [blake2b_3_length] at h6
      exact h6
    · intro c hc
      exact mem_bytesToHex_hex hc
  · intro id node shared
    cases shared
    · rfl
    · rfl
  · intro id node1 node2
    rfl

/-! ## The registered-handler map and handler grace logic -/

/-- `DiscoveryHandlerConnectivityStatus` from `registration`:
`Online`, `HasClient`, or `Offline(Instant)` with the `Instant` as a
`Nat` timestamp. -/
inductive DiscoveryHandlerConnectivityStatus : Type
  | Online : DiscoveryHandlerConnectivityStatus
  | HasClient : DiscoveryHandlerConnectivityStatus
  | Offline : Nat → DiscoveryHandlerConnectivityStatus
deriving DecidableEq, Repr

/-- `RegisterRequest` from the discovery wire contract. -/
structure RegisterRequest : Type where
  protocol : String
  endpoint : String
  is_local : Bool
deriving DecidableEq, Repr

/-- `DiscoveryHandlerDetails` from `registration`: the register request
and the connectivity status (the `stop_discovery` broadcast channel is
not part of the functional state and is omitted). -/
structure DiscoveryHandlerDetails : Type where
  register_request : RegisterRequest
  connectivity_status : DiscoveryHandlerConnectivityStatus
deriving DecidableEq, Repr

/-- The inner map of `RegisteredDiscoveryHandlerMap` for one protocol:
`endpoint -> DiscoveryHandlerDetails`. -/
abbrev HandlerMap : Type := List (String × DiscoveryHandlerDetails)

/-- `mark_offline_or_deregister_discovery_handler`
(`discovery_operator.rs` lines 255-289), acting on the handler map of
the operator's protocol under the map lock. Returns the updated map and
the `deregistered` flag. -/
def mark_offline_or_deregister_discovery_handler (now : Nat)
    (endpoint : String) (m : HandlerMap) : HandlerMap × Bool :=
  match mapLookup m endpoint with
  | none => (m, false)
  | some dh_details =>
    match dh_details.connectivity_status with
    | .Offline instant =>
      if now - instant > DISCOVERY_HANDLER_OFFLINE_GRACE_PERIOD_SECS then
        (mapRemove m endpoint, true)
      else (m, false)
    | .Online =>
      (mapInsert m endpoint
        ⟨dh_details.register_request, .Offline now⟩, false)
    | .HasClient => (m, false)

/-! ## Claim C5 -/

/-- C5: `mark_offline_or_deregister_discovery_handler` with the handler
entry present: `Online` becomes `Offline(now)` with result `false`;
`Offline(since)` strictly beyond `HANDLER_GRACE` (300 s) is removed
from the map with result `true`; `Offline(since)` within the grace
period is left unchanged with result `false`; `HasClient` is a no-op
with result `false`. Consequently (invariant I5) whenever the call
returns `true` the entry was `Offline` for strictly more than the
grace period. -/
theorem C5_mark_offline_or_deregister (now : Nat) (endpoint : String)
    (m : HandlerMap) (dh : DiscoveryHandlerDetails) (since : Nat)
    (hl : mapLookup m endpoint = some dh) :
    (dh.connectivity_status = .Online →
      mark_offline_or_deregister_discovery_handler now endpoint m =
        (mapInsert m endpoint ⟨dh.register_request, .Offline now⟩,
          false)) ∧
    ((dh.connectivity_status = .Offline since ∧
        now - since > DISCOVERY_HANDLER_OFFLINE_GRACE_PERIOD_SECS) →
      mark_offline_or_deregister_discovery_handler now endpoint m =
        (mapRemove m endpoint, true) ∧
      mapLookup
        (mark_offline_or_deregister_discovery_handler now endpoint m).1
        endpoint = none) ∧
    ((dh.connectivity_status = .Offline since ∧
        ¬ now - since > DISCOVERY_HANDLER_OFFLINE_GRACE_PERIOD_SECS) →
      mark_offline_or_deregister_discovery_handler now endpoint m =
        (m, false)) ∧
    (dh.connectivity_status = .HasClient →
      mark_offline_or_deregister_discovery_handler now endpoint m =
        (m, false)) ∧
    ((mark_offline_or_deregister_discovery_handler now endpoint m).2 =
        true →
      ∃ s2, dh.connectivity_status = .Offline s2 ∧
        now - s2 > DISCOVERY_HANDLER_OFFLINE_GRACE_PERIOD_SECS) := by
  obtain ⟨rr, cs⟩ := dh
  unfold mark_offline_or_deregister_discovery_handler
  rw [hl]
  refine ⟨?_, ?_, ?_, ?_, ?_⟩
  · intro hs
    cases hs
    rfl
  · rintro ⟨hs, hg⟩
    cases hs
    simp only [if_pos hg]
    exact ⟨trivial, lookup_mapRemove_self m endpoint⟩
  · rintro ⟨hs, hg⟩
    cases hs
    simp only [if_neg hg]
  · intro hs
    cases hs
    rfl
  · intro hres
    cases cs with
    | Online => simp at hres
    | HasClient => simp at hres
    | Offline s2 =>
      by_cases hg : now - s2 > DISCOVERY_HANDLER_OFFLINE_GRACE_PERIOD_SECS
      · exact ⟨s2, rfl, hg⟩
      · simp [hg] at hres

/-- Witness for C5: all four statuses at concrete inputs. The entry
offline since time 0 inspected at time 301 is removed (301 > 300); one
inspected at time 300 is kept (not strictly greater). -/
theorem C5_witness :
    (mark_offline_or_deregister_discovery_handler 50 "e"
        [("e", ⟨⟨"p", "e", true⟩, .Online⟩)] =
      ([("e", ⟨⟨"p", "e", true⟩, .Offline 50⟩)], false)) ∧
    (mark_offline_or_deregister_discovery_handler 301 "e"
        [("e", ⟨⟨"p", "e", true⟩, .Offline 0⟩)] = ([], true)) ∧
    (mark_offline_or_deregister_discovery_handler 300 "e"
        [("e", ⟨⟨"p", "e", true⟩, .Offline 0⟩)] =
      ([("e", ⟨⟨"p", "e", true⟩, .Offline 0⟩)], false)) ∧
    (mark_offline_or_deregister_discovery_handler 50 "e"
        [("e", ⟨⟨"p", "e", true⟩, .HasClient⟩)] =
      ([("e", ⟨⟨"p", "e", true⟩, .HasClient⟩)], false)) := by
  refine ⟨?_, ?_, ?_, ?_⟩
  · exact ((C5_mark_offline_or_deregister 50 "e" _
      ⟨⟨"p", "e", true⟩, .Online⟩ 0 (by decide)).1 rfl).trans (by decide)
  · exact (((C5_mark_offline_or_deregister 301 "e" _
      ⟨⟨"p", "e", true⟩, .Offline 0⟩ 0 (by decide)).2.1
        ⟨rfl, by decide⟩).1).trans (by decide)
  · exact ((C5_mark_offline_or_deregister 300 "e" _
      ⟨⟨"p", "e", true⟩, .Offline 0⟩ 0 (by decide)).2.2.1
        ⟨rfl, by decide⟩)
  · exact ((C5_mark_offline_or_deregister 50 "e" _
      ⟨⟨"p", "e", true⟩, .HasClient⟩ 0 (by decide)).2.2.2.1 rfl)

/-! ## The reconciler: `handle_discovery_results` -/

/-- `Device` from the discovery wire contract; only `id` and
`properties` are interpreted by the core (`mounts` and `device_specs`
are carried opaquely and omitted from the embedding). -/
structure Device : Type where
  id : String
  properties : List (String × String)
deriving DecidableEq, Repr

/-- Modelled from the spec: `get_device_instance_name` (module
`device_plugin_service`, not under `src/`) forms the instance name
"{configuration-name}-{digest}". -/
def get_device_instance_name (id config_name : String) : String :=
  config_name ++ "-" ++ id

/-- The instance name of one discovered device, as computed inside
`handle_discovery_results`: `generate_instance_digest(id, !is_local)`
then `get_device_instance_name`; `node_name` stands for the
`AGENT_NODE_NAME` environment variable. -/
def deviceInstanceName (config_name node_name : String) (is_local : Bool)
    (d : Device) : String :=
  get_device_instance_name
    (inner_generate_instance_digest d.id (!is_local) node_name) config_name

/-- The `currently_visible_instances` map of `handle_discovery_results`
(lines 349-356): collected into a `HashMap`, duplicate instance names
within one response resolve last-writer-wins. -/
def visibleInstances (config_name node_name : String) (is_local : Bool)
    (discovery_results : List Device) : List (String × Device) :=
  discovery_results.foldl
    (fun acc d =>
      mapInsert acc (deviceInstanceName config_name node_name is_local d) d)
    []

/-- The `new_discovery_results` list of `handle_discovery_results`
(lines 363-367): visible devices whose instance name is not yet in the
instance map. -/
def new_discovery_results (visible : List (String × Device))
    (instance_map : InstanceMap) : List Device :=
  (visible.filter fun p => !(mapLookup instance_map p.1).isSome).map
    Prod.snd

/-- Modelled from the spec: `build_device_plugin` (module
`device_plugin_builder`, not under `src/`) creates the per-instance
device plugin and registers the instance in the instance map with
status `Online`; `newSender` provides the broadcast channel id of the
new plugin's list-and-watch loop. -/
def build_device_plugin (newSender : String → Nat)
    (instance_name : String) (m : InstanceMap) : InstanceMap :=
  mapInsert m instance_name ⟨.Online, newSender instance_name⟩

/-- The loop over `new_discovery_results` of `handle_discovery_results`
(lines 372-399): the factory is invoked per device (`factory_ok` gives
its outcome); a failure is logged (recorded as a failed
`buildAttempt`) and skipped, not propagated. -/
def buildLoop (config_name node_name : String) (is_local : Bool)
    (factory_ok : String → Bool) (newSender : String → Nat) :
    InstanceMap → List Device → InstanceMap × List Effect
  | m, [] => (m, [])
  | m, d :: rest =>
    let instance_name := deviceInstanceName config_name node_name is_local d
    if factory_ok instance_name then
      let q := buildLoop config_name node_name is_local factory_ok newSender
        (build_device_plugin newSender instance_name m) rest
      (q.1, .buildAttempt instance_name true :: q.2)
    else
      let q := buildLoop config_name node_name is_local factory_ok newSender
        m rest
      (q.1, .buildAttempt instance_name false :: q.2)

/-- `handle_discovery_results` (`discovery_operator.rs` lines 337-401):
builds the visible map, determines the new devices against the
pre-update instance map, runs `update_connectivity_status`, then builds
a device plugin for each new device, swallowing factory errors; always
returns `Ok`. -/
def handle_discovery_results (now : Nat)
    (config_name node_name : String) (discovery_results : List Device)
    (is_local : Bool) (factory_ok : String → Bool)
    (newSender : String → Nat) (instance_map : InstanceMap) :
    Except String InstanceMap × List Effect :=
  let currently_visible_instances :=
    visibleInstances config_name node_name is_local discovery_results
  let new_results :=
    new_discovery_results currently_visible_instances instance_map
  let u := update_connectivity_status now
    (mapKeys currently_visible_instances) is_local instance_map
  let b := buildLoop config_name node_name is_local factory_ok newSender
    u.1 new_results
  (.ok b.1, u.2 ++ b.2)

/-! ## Structure of the visible map and the build loop -/

theorem mem_mapInsert {α : Type} {m : List (String × α)} {k : String}
    {v : α} {p : String × α} (h : p ∈ mapInsert m k v) :
    p ∈ m ∨ p = (k, v) := by
  induction m with
  | nil =>
    simp [mapInsert] at h
    exact Or.inr h
  | cons q rest ih =>
    obtain ⟨k1, v1⟩ := q
    by_cases h1 : k1 = k
    · subst h1
      rw [mapInsert_cons_self] at h
      rcases List.mem_cons.mp h with h2 | h2
      · exact Or.inr h2
      · exact Or.inl (List.mem_cons_of_mem _ h2)
    · rw [mapInsert_cons_ne h1] at h
      rcases List.mem_cons.mp h with h2 | h2
      · exact Or.inl (h2 ▸ List.mem_cons_self _ _)
      · rcases ih h2 with h3 | h3
        · exact Or.inl (List.mem_cons_of_mem _ h3)
        · exact Or.inr h3

theorem mem_visibleInstances_aux (config_name node_name : String)
    (is_local : Bool) (ds : List Device) :
    ∀ (acc : List (String × Device)) (p : String × Device),
      p ∈ ds.foldl (fun acc d =>
        mapInsert acc (deviceInstanceName config_name node_name is_local d)
          d) acc →
      p ∈ acc ∨ ∃ d ∈ ds,
        p = (deviceInstanceName config_name node_name is_local d, d) := by
  induction ds with
  | nil =>
    intro acc p h
    exact Or.inl h
  | cons d rest ih =>
    intro acc p h
    rw [List.foldl_cons] at h
    rcases ih _ p h with h1 | ⟨d2, hd2, hp⟩
    · rcases mem_mapInsert h1 with h2 | h2
      · exact Or.inl h2
      · exact Or.inr ⟨d, List.mem_cons_self _ _, h2⟩
    · exact Or.inr ⟨d2, List.mem_cons_of_mem _ hd2, hp⟩

theorem mem_visibleInstances {config_name node_name : String}
    {is_local : Bool} {ds : List Device} {p : String × Device}
    (h : p ∈ visibleInstances config_name node_name is_local ds) :
    p.1 = deviceInstanceName config_name node_name is_local p.2 ∧
      p.2 ∈ ds := by
  rcases mem_visibleInstances_aux config_name node_name is_local ds [] p
      h with h1 | ⟨d, hd, hp⟩
  · simp at h1
  · rw [hp]
    exact ⟨rfl, hd⟩

theorem buildLoop_cons_ok {config_name node_name : String}
    {is_local : Bool} {factory_ok : String → Bool}
    {newSender : String → Nat} {m : InstanceMap} {d : Device}
    {rest : List Device}
    (h : factory_ok (deviceInstanceName config_name node_name is_local d) =
      true) :
    buildLoop config_name node_name is_local factory_ok newSender m
      (d :: rest) =
    ((buildLoop config_name node_name is_local factory_ok newSender
        (build_device_plugin newSender
          (deviceInstanceName config_name node_name is_local d) m)
        rest).1,
      .buildAttempt (deviceInstanceName config_name node_name is_local d)
          true ::
        (buildLoop config_name node_name is_local factory_ok newSender
          (build_device_plugin newSender
            (deviceInstanceName config_name node_name is_local d) m)
          rest).2) := by
  simp [buildLoop, h]

theorem buildLoop_cons_fail {config_name node_name : String}
    {is_local : Bool} {factory_ok : String → Bool}
    {newSender : String → Nat} {m : InstanceMap} {d : Device}
    {rest : List Device}
    (h : factory_ok (deviceInstanceName config_name node_name is_local d) =
      false) :
    buildLoop config_name node_name is_local factory_ok newSender m
      (d :: rest) =
    ((buildLoop config_name node_name is_local factory_ok newSender m
        rest).1,
      .buildAttempt (deviceInstanceName config_name node_name is_local d)
          false ::
        (buildLoop config_name node_name is_local factory_ok newSender m
          rest).2) := by
  simp [buildLoop, h]

theorem buildLoop_lookup (config_name node_name : String) (is_local : Bool)
    (factory_ok : String → Bool) (newSender : String → Nat)
    (ds : List Device) (m : InstanceMap) (name : String) :
    mapLookup
      (buildLoop config_name node_name is_local factory_ok newSender m
        ds).1 name =
    if (ds.any fun d =>
          deviceInstanceName config_name node_name is_local d == name) &&
        factory_ok name then
      some ⟨.Online, newSender name⟩
    else mapLookup m name := by
  induction ds generalizing m with
  | nil => simp [buildLoop]
  | cons d rest ih =>
    cases hok : factory_ok (deviceInstanceName config_name node_name
      is_local d) with
    | true =>
      rw [buildLoop_cons_ok hok]
      show mapLookup (buildLoop _ _ _ _ _ _ rest).1 name = _
      rw [ih]
      by_cases hnm : deviceInstanceName config_name node_name is_local d =
        name
      · subst hnm
        rw [List.any_cons]
        simp only [beq_self_eq_true, Bool.true_or, hok, Bool.and_true]
        by_cases hrest : (rest.any fun d2 =>
            deviceInstanceName config_name node_name is_local d2 ==
              deviceInstanceName config_name node_name is_local d) = true
        · simp [hrest, hok]
        · rw [Bool.not_eq_true] at hrest
          simp [hrest, hok, build_device_plugin, lookup_mapInsert_self]
      · have hb : (deviceInstanceName config_name node_name is_local d ==
            name) = false := by
          simp [hnm]
        rw [List.any_cons, hb, Bool.false_or,
          show mapLookup (build_device_plugin newSender
              (deviceInstanceName config_name node_name is_local d) m)
            name = mapLookup m name from
            lookup_mapInsert_ne m _ (Ne.symm hnm)]
    | false =>
      rw [buildLoop_cons_fail hok]
      show mapLookup (buildLoop _ _ _ _ _ _ rest).1 name = _
      rw [ih]
      by_cases hnm : deviceInstanceName config_name node_name is_local d =
        name
      · subst hnm
        rw [List.any_cons]
        simp [hok]
      · have hb : (deviceInstanceName config_name node_name is_local d ==
            name) = false := by
          simp [hnm]
        rw [List.any_cons, hb, Bool.false_or]

theorem buildLoop_effects (config_name node_name : String)
    (is_local : Bool) (factory_ok : String → Bool)
    (newSender : String → Nat) (ds : List Device) (m : InstanceMap) :
    (buildLoop config_name node_name is_local factory_ok newSender m
      ds).2 =
    ds.map fun d =>
      .buildAttempt (deviceInstanceName config_name node_name is_local d)
        (factory_ok
          (deviceInstanceName config_name node_name is_local d)) := by
  induction ds generalizing m with
  | nil => simp [buildLoop]
  | cons d rest ih =>
    cases hok : factory_ok (deviceInstanceName config_name node_name
      is_local d) with
    | true =>
      rw [buildLoop_cons_ok hok]
      show _ :: (buildLoop _ _ _ _ _ _ rest).2 = _
      rw [ih, List.map_cons, hok]
    | false =>
      rw [buildLoop_cons_fail hok]
      show _ :: (buildLoop _ _ _ _ _ _ rest).2 = _
      rw [ih, List.map_cons, hok]

theorem buildLoop_nodup (config_name node_name : String) (is_local : Bool)
    (factory_ok : String → Bool) (newSender : String → Nat)
    (ds : List Device) (m : InstanceMap) (hn : (mapKeys m).Nodup) :
    (mapKeys (buildLoop config_name node_name is_local factory_ok
      newSender m ds).1).Nodup := by
  induction ds generalizing m with
  | nil => exact hn
  | cons d rest ih =>
    cases hok : factory_ok (deviceInstanceName config_name node_name
      is_local d) with
    | true =>
      rw [buildLoop_cons_ok hok]
      exact ih _ (nodup_mapKeys_mapInsert _ _ _ hn)
    | false =>
      rw [buildLoop_cons_fail hok]
      exact ih _ hn

/-! ## Fixed-point and preservation lemmas for the update loop -/

theorem processEntry_noop (now : Nat) (vis : List String) (is_local : Bool)
    (live : InstanceMap) (inst : String) (info : InstanceInfo)
    (h : (vis.contains inst = true ∧
        info.connectivity_status = .Online) ∨
      (vis.contains inst = false ∧ ∃ s,
        info.connectivity_status = .Offline s ∧
        now - s < SHARED_INSTANCE_OFFLINE_GRACE_PERIOD_SECS)) :
    processEntry now vis is_local live inst info = (live, []) := by
  unfold processEntry
  rcases h with ⟨hv, hs⟩ | ⟨hv, s, hs, hg⟩
  · rw [hv, hs]
    simp
  · rw [hv, hs]
    simp [Nat.not_le.mpr hg]

theorem updateLoop_noop (now : Nat) (vis : List String) (is_local : Bool)
    (snapshot : List (String × InstanceInfo))
    (h : ∀ inst info, (inst, info) ∈ snapshot →
      (vis.contains inst = true ∧
        info.connectivity_status = .Online) ∨
      (vis.contains inst = false ∧ ∃ s,
        info.connectivity_status = .Offline s ∧
        now - s < SHARED_INSTANCE_OFFLINE_GRACE_PERIOD_SECS)) :
    ∀ live : InstanceMap,
      updateLoop now vis is_local live snapshot = (live, []) := by
  induction snapshot with
  | nil =>
    intro live
    rfl
  | cons p rest ih =>
    intro live
    obtain ⟨inst, info⟩ := p
    simp only [updateLoop]
    rw [processEntry_noop now vis is_local live inst info
      (h inst info (List.mem_cons_self _ _))]
    rw [ih (fun i2 f2 hm => h i2 f2 (List.mem_cons_of_mem _ hm)) live]
    rfl

theorem processEntry_nodup (now : Nat) (vis : List String)
    (is_local : Bool) (live : InstanceMap) (inst : String)
    (info : InstanceInfo) (hn : (mapKeys live).Nodup) :
    (mapKeys (processEntry now vis is_local live inst info).1).Nodup := by
  unfold processEntry terminate_device_plugin_service
  by_cases hv : vis.contains inst
  · simp only [hv, if_true]
    match info with
    | ⟨.Online, s⟩ => exact hn
    | ⟨.Offline t, s⟩ => simpa using nodup_mapKeys_mapInsert _ _ _ hn
  · simp only [hv, if_false]
    match info with
    | ⟨.Online, s⟩ =>
      by_cases hl : is_local
      · simpa [hl] using nodup_mapKeys_mapRemove _ _ hn
      · simpa [hl] using nodup_mapKeys_mapInsert _ _ _ hn
    | ⟨.Offline t, s⟩ =>
      by_cases hg : now - t ≥ SHARED_INSTANCE_OFFLINE_GRACE_PERIOD_SECS
      · simpa [hg] using nodup_mapKeys_mapRemove _ _ hn
      · simpa [hg] using hn

theorem updateLoop_nodup (now : Nat) (vis : List String) (is_local : Bool)
    (snapshot : List (String × InstanceInfo)) :
    ∀ live : InstanceMap, (mapKeys live).Nodup →
      (mapKeys (updateLoop now vis is_local live snapshot).1).Nodup := by
  induction snapshot with
  | nil =>
    intro live hn
    exact hn
  | cons p rest ih =>
    intro live hn
    obtain ⟨inst, info⟩ := p
    simp only [updateLoop]
    exact ih _ (processEntry_nodup now vis is_local live inst info hn)

/-! ## The reconcile post-state -/

/-- The instance map produced by one successful
`handle_discovery_results` call (the payload of its `Ok` result). -/
def reconcileMap (now : Nat) (config_name node_name : String)
    (discovery_results : List Device) (is_local : Bool)
    (factory_ok : String → Bool) (newSender : String → Nat)
    (instance_map : InstanceMap) : InstanceMap :=
  (buildLoop config_name node_name is_local factory_ok newSender
    (update_connectivity_status now
      (mapKeys (visibleInstances config_name node_name is_local
        discovery_results)) is_local instance_map).1
    (new_discovery_results
      (visibleInstances config_name node_name is_local discovery_results)
      instance_map)).1

theorem handle_fst (now : Nat) (config_name node_name : String)
    (ds : List Device) (is_local : Bool) (factory_ok : String → Bool)
    (newSender : String → Nat) (m : InstanceMap) :
    (handle_discovery_results now config_name node_name ds is_local
      factory_ok newSender m).1 =
    .ok (reconcileMap now config_name node_name ds is_local factory_ok
      newSender m) :=
  rfl

theorem update_lookup_of_lookup (now : Nat) (vis : List String)
    (is_local : Bool) (m : InstanceMap) {name : String}
    {info0 : InstanceInfo} (hn : (mapKeys m).Nodup)
    (hm : mapLookup m name = some info0) :
    mapLookup (update_connectivity_status now vis is_local m).1 name =
      entryResult now vis is_local name info0 :=
  (updateLoop_hit now vis is_local m m hn (mem_of_lookup_eq_some hm)
    hm).1

theorem update_lookup_none (now : Nat) (vis : List String)
    (is_local : Bool) (m : InstanceMap) {name : String}
    (hm : mapLookup m name = none) :
    mapLookup (update_connectivity_status now vis is_local m).1 name =
      none := by
  have hnot : name ∉ mapKeys m := by
    intro hmem
    have h2 := (lookup_isSome_iff_mem_mapKeys m name).mpr hmem
    rw [hm] at h2
    simp at h2
  rw [show update_connectivity_status now vis is_local m =
    updateLoop now vis is_local m m from rfl,
    (updateLoop_skip now vis is_local m m hnot).1, hm]

theorem reconcileMap_post (now : Nat) (config_name node_name : String)
    (ds : List Device) (is_local : Bool) (newSender : String → Nat)
    (m : InstanceMap) (hn : (mapKeys m).Nodup) :
    (mapKeys (reconcileMap now config_name node_name ds is_local
      (fun _ => true) newSender m)).Nodup ∧
    (∀ name info,
      mapLookup (reconcileMap now config_name node_name ds is_local
        (fun _ => true) newSender m) name = some info →
      (name ∈ mapKeys (visibleInstances config_name node_name is_local
          ds) → info.connectivity_status = .Online) ∧
      (name ∉ mapKeys (visibleInstances config_name node_name is_local
          ds) → ∃ s, info.connectivity_status = .Offline s ∧
        now - s < SHARED_INSTANCE_OFFLINE_GRACE_PERIOD_SECS)) ∧
    (∀ name ∈ mapKeys (visibleInstances config_name node_name is_local
        ds),
      (mapLookup (reconcileMap now config_name node_name ds is_local
        (fun _ => true) newSender m) name).isSome = true) := by
  refine ⟨?_, ?_, ?_⟩
  · exact buildLoop_nodup _ _ _ _ _ _ _
      (updateLoop_nodup now _ is_local m m hn)
  · intro name info hsome
    have hbl := buildLoop_lookup config_name node_name is_local
      (fun _ => true) newSender
      (new_discovery_results
        (visibleInstances config_name node_name is_local ds) m)
      (update_connectivity_status now
        (mapKeys (visibleInstances config_name node_name is_local ds))
        is_local m).1 name
    simp only [Bool.and_true] at hbl
    unfold reconcileMap at hsome
    cases hany : ((new_discovery_results
        (visibleInstances config_name node_name is_local ds) m).any
        fun d => deviceInstanceName config_name node_name is_local d ==
          name) with
    | true =>
      rw [hany, if_pos rfl] at hbl
      have hinfo : info = ⟨.Online, newSender name⟩ := by
        rw [hsome] at hbl
        exact Option.some.inj hbl
      have hvis : name ∈ mapKeys
          (visibleInstances config_name node_name is_local ds) := by
        obtain ⟨d, hd, hdn⟩ := List.any_eq_true.mp hany
        obtain ⟨p, hp, hp2⟩ := List.mem_map.mp hd
        have hpv : p ∈ visibleInstances config_name node_name is_local
            ds := (List.mem_filter.mp hp).1
        have hkey := (mem_visibleInstances hpv).1
        have hdn2 : deviceInstanceName config_name node_name is_local d =
          name := by simpa using hdn
        have : p.1 = name := by rw [hkey, hp2, hdn2]
        exact this ▸ mem_mapKeys_of_mem
          (show (p.1, p.2) ∈ _ from by simpa using hpv)
      refine ⟨fun _ => by rw [hinfo], fun habs => absurd hvis habs⟩
    | false =>
      rw [hany] at hbl
      rw [if_neg (by simp)] at hbl
      rw [hbl] at hsome
      cases hm0 : mapLookup m name with
      | none =>
        rw [update_lookup_none now _ is_local m hm0] at hsome
        simp at hsome
      | some info0 =>
        rw [update_lookup_of_lookup now _ is_local m hn hm0] at hsome
        cases hc : (mapKeys (visibleInstances config_name node_name
            is_local ds)).contains name with
        | true =>
          have hcm : name ∈ mapKeys (visibleInstances config_name
              node_name is_local ds) := List.elem_iff.mp hc
          unfold entryResult at hsome
          rw [hc, if_pos rfl] at hsome
          refine ⟨fun _ => ?_, fun habs => absurd hcm habs⟩
          cases hstat : info0.connectivity_status with
          | Online =>
            rw [hstat] at hsome
            simp at hsome
            rw [← hsome, hstat]
          | Offline t =>
            rw [hstat] at hsome
            simp at hsome
            rw [← hsome]
        | false =>
          have hcm : name ∉ mapKeys (visibleInstances config_name
              node_name is_local ds) := by
            intro hmem
            have hcontra : (mapKeys (visibleInstances config_name
                node_name is_local ds)).contains name = true :=
              List.elem_iff.mpr hmem
            rw [hcontra] at hc
            simp at hc
          unfold entryResult at hsome
          rw [hc, if_neg (by simp)] at hsome
          refine ⟨fun hmem => absurd hmem hcm, fun _ => ?_⟩
          cases hstat : info0.connectivity_status with
          | Online =>
            rw [hstat] at hsome
            cases hl : is_local with
            | true =>
              rw [hl] at hsome
              simp at hsome
            | false =>
              rw [hl] at hsome
              simp at hsome
              exact ⟨now, by rw [← hsome], by rw [Nat.sub_self]; decide⟩
          | Offline t =>
            rw [hstat] at hsome
            by_cases hg : now - t ≥ SHARED_INSTANCE_OFFLINE_GRACE_PERIOD_SECS
            · simp [hg] at hsome
            · simp [hg] at hsome
              exact ⟨t, by rw [← hsome, hstat], Nat.not_le.mp hg⟩
  · intro name hmem
    obtain ⟨p, hp, hp1⟩ := List.mem_map.mp hmem
    have hbl := buildLoop_lookup config_name node_name is_local
      (fun _ => true) newSender
      (new_discovery_results
        (visibleInstances config_name node_name is_local ds) m)
      (update_connectivity_status now
        (mapKeys (visibleInstances config_name node_name is_local ds))
        is_local m).1 name
    simp only [Bool.and_true] at hbl
    unfold reconcileMap
    cases hany : ((new_discovery_results
        (visibleInstances config_name node_name is_local ds) m).any
        fun d => deviceInstanceName config_name node_name is_local d ==
          name) with
    | true =>
      rw [hany, if_pos rfl] at hbl
      rw [hbl]
      rfl
    | false =>
      rw [hany] at hbl
      rw [if_neg (by simp)] at hbl
      rw [hbl]
      cases hm0 : mapLookup m name with
      | none =>
        exfalso
        have hfilter : p ∈ (visibleInstances config_name node_name
            is_local ds).filter
            (fun q => !(mapLookup m q.1).isSome) := by
          refine List.mem_filter.mpr ⟨hp, ?_⟩
          rw [hp1, hm0]
          rfl
        have hmemnr : p.2 ∈ new_discovery_results
            (visibleInstances config_name node_name is_local ds) m :=
          List.mem_map_of_mem Prod.snd hfilter
        have hkey := (mem_visibleInstances hp).1
        have : ((new_discovery_results
            (visibleInstances config_name node_name is_local ds) m).any
            fun d => deviceInstanceName config_name node_name is_local d ==
              name) = true := by
          refine List.any_eq_true.mpr ⟨p.2, hmemnr, ?_⟩
          rw [← hkey, hp1]
          simp
        rw [this] at hany
        simp at hany
      | some info0 =>
        rw [update_lookup_of_lookup now _ is_local m hn hm0]
        have hc : (mapKeys (visibleInstances config_name node_name
            is_local ds)).contains name = true := List.elem_iff.mpr hmem
        unfold entryResult
        rw [hc, if_pos rfl]
        cases hstat : info0.connectivity_status with
        | Online => rfl
        | Offline t => rfl

theorem handle_noop (now : Nat) (config_name node_name : String)
    (ds : List Device) (is_local : Bool) (factory_ok : String → Bool)
    (newSender : String → Nat) (m1 : InstanceMap)
    (hn1 : (mapKeys m1).Nodup)
    (hb : ∀ name info, mapLookup m1 name = some info →
      (name ∈ mapKeys (visibleInstances config_name node_name is_local
          ds) → info.connectivity_status = .Online) ∧
      (name ∉ mapKeys (visibleInstances config_name node_name is_local
          ds) → ∃ s, info.connectivity_status = .Offline s ∧
        now - s < SHARED_INSTANCE_OFFLINE_GRACE_PERIOD_SECS))
    (hc : ∀ name ∈ mapKeys (visibleInstances config_name node_name
        is_local ds),
      (mapLookup m1 name).isSome = true) :
    handle_discovery_results now config_name node_name ds is_local
      factory_ok newSender m1 = (.ok m1, []) := by
  have hnew : new_discovery_results
      (visibleInstances config_name node_name is_local ds) m1 = [] := by
    unfold new_discovery_results
    rw [List.filter_eq_nil_iff.mpr ?_, List.map_nil]
    intro p hp
    have hkey : p.1 ∈ mapKeys
        (visibleInstances config_name node_name is_local ds) :=
      mem_mapKeys_of_mem (show (p.1, p.2) ∈ _ from by simpa using hp)
    rw [hc p.1 hkey]
    simp
  have hupd : update_connectivity_status now
      (mapKeys (visibleInstances config_name node_name is_local ds))
      is_local m1 = (m1, []) := by
    refine updateLoop_noop now _ is_local m1 ?_ m1
    intro inst info hm
    have hl := lookup_eq_some_of_mem hn1 hm
    cases hcont : (mapKeys (visibleInstances config_name node_name
        is_local ds)).contains inst with
    | true =>
      exact Or.inl ⟨rfl,
        (hb inst info hl).1 (List.elem_iff.mp hcont)⟩
    | false =>
      refine Or.inr ⟨rfl, (hb inst info hl).2 ?_⟩
      intro hmem
      have hcontra : (mapKeys (visibleInstances config_name node_name
          is_local ds)).contains inst = true := List.elem_iff.mpr hmem
      rw [hcontra] at hcont
      simp at hcont
  have hexpand : handle_discovery_results now config_name node_name ds
      is_local factory_ok newSender m1 =
    (.ok (buildLoop config_name node_name is_local factory_ok newSender
        (update_connectivity_status now
          (mapKeys (visibleInstances config_name node_name is_local ds))
          is_local m1).1
        (new_discovery_results
          (visibleInstances config_name node_name is_local ds) m1)).1,
      (update_connectivity_status now
        (mapKeys (visibleInstances config_name node_name is_local ds))
        is_local m1).2 ++
      (buildLoop config_name node_name is_local factory_ok newSender
        (update_connectivity_status now
          (mapKeys (visibleInstances config_name node_name is_local ds))
          is_local m1).1
        (new_discovery_results
          (visibleInstances config_name node_name is_local ds) m1)).2) :=
    rfl
  rw [hexpand, hupd, hnew]
  rfl

/-! ## Claim C8 -/

/-- C8: reconciliation is idempotent. If a first delivery of a device
list succeeds entirely (every factory build succeeds, yielding `Ok m1`),
then delivering the same list again at the same time produces `Ok m1`
with an empty effect trace: the instance map is unchanged, the factory
is not invoked for any device, and no instance receives a notification,
is terminated, or is deleted. -/
theorem C8_reconcile_idempotent (now : Nat)
    (config_name node_name : String) (ds : List Device) (is_local : Bool)
    (newSender : String → Nat) (m : InstanceMap)
    (hn : (mapKeys m).Nodup) :
    ∀ m1, (handle_discovery_results now config_name node_name ds is_local
        (fun _ => true) newSender m).1 = .ok m1 →
      handle_discovery_results now config_name node_name ds is_local
        (fun _ => true) newSender m1 = (.ok m1, []) := by
  intro m1 h
  have hm1 : m1 = reconcileMap now config_name node_name ds is_local
      (fun _ => true) newSender m := by
    rw [handle_fst] at h
    exact (Except.ok.inj h).symm
  obtain ⟨hpn, hpb, hpc⟩ := reconcileMap_post now config_name node_name
    ds is_local newSender m hn
  subst hm1
  exact handle_noop now config_name node_name ds is_local (fun _ => true)
    newSender _ hpn hpb hpc

set_option maxRecDepth 100000 in
/-- Witness for C8: one shared device `dev1` delivered to an empty map
yields the instance `c1-e95cd1` (BLAKE2b digest of `dev1`), and a
second identical delivery at the same time is a no-op. -/
theorem C8_witness :
    handle_discovery_results 5 "c1" "n" [⟨"dev1", []⟩] false
      (fun _ => true) (fun _ => 0)
      [("c1-e95cd1", ⟨.Online, 0⟩)] =
    (.ok [("c1-e95cd1", ⟨.Online, 0⟩)], []) :=
  C8_reconcile_idempotent 5 "c1" "n" [⟨"dev1", []⟩] false (fun _ => 0)
    [] (by decide) [("c1-e95cd1", ⟨.Online, 0⟩)] (by rfl)

/-! ## Claim C9 -/

theorem handle_snd (now : Nat) (config_name node_name : String)
    (ds : List Device) (is_local : Bool) (factory_ok : String → Bool)
    (newSender : String → Nat) (m : InstanceMap) :
    (handle_discovery_results now config_name node_name ds is_local
      factory_ok newSender m).2 =
    (update_connectivity_status now
      (mapKeys (visibleInstances config_name node_name is_local ds))
      is_local m).2 ++
    (buildLoop config_name node_name is_local factory_ok newSender
      (update_connectivity_status now
        (mapKeys (visibleInstances config_name node_name is_local ds))
        is_local m).1
      (new_discovery_results
        (visibleInstances config_name node_name is_local ds) m)).2 :=
  rfl

/-- C9: when the device-plugin factory fails for a new visible device,
`handle_discovery_results` still returns `Ok`; the failed build is
recorded (logged) but not propagated; the device is not added to the
instance map; delivering the same device list again offers the same
device to the factory a second time; and the other new devices whose
builds succeed are still registered in the map. -/
theorem C9_factory_error_swallowed (now : Nat)
    (config_name node_name : String) (ds : List Device) (is_local : Bool)
    (factory_ok : String → Bool) (newSender : String → Nat)
    (m : InstanceMap) (name : String) (d : Device)
    (hvis : mapLookup (visibleInstances config_name node_name is_local
      ds) name = some d)
    (hnew : mapLookup m name = none)
    (hfail : factory_ok name = false) :
    (handle_discovery_results now config_name node_name ds is_local
        factory_ok newSender m).1 =
      .ok (reconcileMap now config_name node_name ds is_local factory_ok
        newSender m) ∧
    Effect.buildAttempt name false ∈
      (handle_discovery_results now config_name node_name ds is_local
        factory_ok newSender m).2 ∧
    mapLookup (reconcileMap now config_name node_name ds is_local
      factory_ok newSender m) name = none ∧
    Effect.buildAttempt name false ∈
      (handle_discovery_results now config_name node_name ds is_local
        factory_ok newSender
        (reconcileMap now config_name node_name ds is_local factory_ok
          newSender m)).2 ∧
    (∀ name2 d2, mapLookup (visibleInstances config_name node_name
        is_local ds) name2 = some d2 →
      mapLookup m name2 = none → factory_ok name2 = true →
      mapLookup (reconcileMap now config_name node_name ds is_local
        factory_ok newSender m) name2 =
        some ⟨.Online, newSender name2⟩) := by
  have hpv : (name, d) ∈ visibleInstances config_name node_name is_local
      ds := mem_of_lookup_eq_some hvis
  have hname : name = deviceInstanceName config_name node_name is_local
      d := (mem_visibleInstances hpv).1
  have hmemnr : d ∈ new_discovery_results
      (visibleInstances config_name node_name is_local ds) m := by
    refine List.mem_map_of_mem Prod.snd (List.mem_filter.mpr ⟨hpv, ?_⟩)
    simp [hnew]
  have hlookupnone : mapLookup (reconcileMap now config_name node_name ds
      is_local factory_ok newSender m) name = none := by
    unfold reconcileMap
    rw [buildLoop_lookup]
    rw [hfail, Bool.and_false, if_neg (by simp)]
    exact update_lookup_none now _ is_local m hnew
  refine ⟨handle_fst now config_name node_name ds is_local factory_ok
    newSender m, ?_, hlookupnone, ?_, ?_⟩
  · rw [handle_snd]
    refine List.mem_append.mpr (Or.inr ?_)
    rw [buildLoop_effects]
    have := List.mem_map_of_mem
      (fun d2 => Effect.buildAttempt
        (deviceInstanceName config_name node_name is_local d2)
        (factory_ok
          (deviceInstanceName config_name node_name is_local d2)))
      hmemnr
    simpa [← hname, hfail] using this
  · rw [handle_snd]
    refine List.mem_append.mpr (Or.inr ?_)
    rw [buildLoop_effects]
    have hmemnr2 : d ∈ new_discovery_results
        (visibleInstances config_name node_name is_local ds)
        (reconcileMap now config_name node_name ds is_local factory_ok
          newSender m) := by
      refine List.mem_map_of_mem Prod.snd
        (List.mem_filter.mpr ⟨hpv, ?_⟩)
      simp [hlookupnone]
    have := List.mem_map_of_mem
      (fun d2 => Effect.buildAttempt
        (deviceInstanceName config_name node_name is_local d2)
        (factory_ok
          (deviceInstanceName config_name node_name is_local d2)))
      hmemnr2
    simpa [← hname, hfail] using this
  · intro name2 d2 hvis2 hnew2 hok2
    have hpv2 : (name2, d2) ∈ visibleInstances config_name node_name
        is_local ds := mem_of_lookup_eq_some hvis2
    have hname2 : name2 = deviceInstanceName config_name node_name
        is_local d2 := (mem_visibleInstances hpv2).1
    have hmemnr2 : d2 ∈ new_discovery_results
        (visibleInstances config_name node_name is_local ds) m := by
      refine List.mem_map_of_mem Prod.snd
        (List.mem_filter.mpr ⟨hpv2, ?_⟩)
      simp [hnew2]
    unfold reconcileMap
    rw [buildLoop_lookup]
    have hany : ((new_discovery_results
        (visibleInstances config_name node_name is_local ds) m).any
        fun d3 => deviceInstanceName config_name node_name is_local d3 ==
          name2) = true := by
      refine List.any_eq_true.mpr ⟨d2, hmemnr2, ?_⟩
      rw [← hname2]
      simp
    rw [hany, hok2]
    simp

set_option maxRecDepth 400000 in
/-- Witness for C9: two shared devices `dev1` and `dev2` delivered to an
empty map with a factory that fails exactly on `dev1`'s instance name
`c1-e95cd1`: the failed device stays out of the map and is offered
again, while `dev2`'s instance `c1-9b0391` is registered `Online`. -/
theorem C9_witness :
    Effect.buildAttempt "c1-e95cd1" false ∈
      (handle_discovery_results 5 "c1" "n"
        [⟨"dev1", []⟩, ⟨"dev2", []⟩] false
        (fun s => !(s == "c1-e95cd1")) (fun _ => 0) []).2 ∧
    mapLookup (reconcileMap 5 "c1" "n" [⟨"dev1", []⟩, ⟨"dev2", []⟩]
      false (fun s => !(s == "c1-e95cd1")) (fun _ => 0) [])
      "c1-e95cd1" = none ∧
    Effect.buildAttempt "c1-e95cd1" false ∈
      (handle_discovery_results 5 "c1" "n"
        [⟨"dev1", []⟩, ⟨"dev2", []⟩] false
        (fun s => !(s == "c1-e95cd1")) (fun _ => 0)
        (reconcileMap 5 "c1" "n" [⟨"dev1", []⟩, ⟨"dev2", []⟩] false
          (fun s => !(s == "c1-e95cd1")) (fun _ => 0) [])).2 ∧
    mapLookup (reconcileMap 5 "c1" "n" [⟨"dev1", []⟩, ⟨"dev2", []⟩]
      false (fun s => !(s == "c1-e95cd1")) (fun _ => 0) [])
      "c1-9b0391" = some ⟨.Online, 0⟩ :=
  ⟨(C9_factory_error_swallowed 5 "c1" "n" [⟨"dev1", []⟩, ⟨"dev2", []⟩]
      false (fun s => !(s == "c1-e95cd1")) (fun _ => 0) [] "c1-e95cd1"
      ⟨"dev1", []⟩ (by rfl) rfl rfl).2.1,
    (C9_factory_error_swallowed 5 "c1" "n" [⟨"dev1", []⟩, ⟨"dev2", []⟩]
      false (fun s => !(s == "c1-e95cd1")) (fun _ => 0) [] "c1-e95cd1"
      ⟨"dev1", []⟩ (by rfl) rfl rfl).2.2.1,
    (C9_factory_error_swallowed 5 "c1" "n" [⟨"dev1", []⟩, ⟨"dev2", []⟩]
      false (fun s => !(s == "c1-e95cd1")) (fun _ => 0) [] "c1-e95cd1"
      ⟨"dev1", []⟩ (by rfl) rfl rfl).2.2.2.1,
    (C9_factory_error_swallowed 5 "c1" "n" [⟨"dev1", []⟩, ⟨"dev2", []⟩]
      false (fun s => !(s == "c1-e95cd1")) (fun _ => 0) [] "c1-e95cd1"
      ⟨"dev1", []⟩ (by rfl) rfl rfl).2.2.2.2 "c1-9b0391" ⟨"dev2", []⟩
      (by rfl) rfl (by rfl)⟩

/-! ## The handler session loop: `internal_do_discover` -/

/-- One observable event of the `tokio::select!` loop of
`internal_do_discover`: the stop signal fires, `stream.get_message()`
returns `Ok(message)` (with `message` the optional `DiscoverResponse`,
reduced to its `devices` list), or it returns a transport error
carrying a message. -/
inductive SessionEvent : Type
  | stopSignal : SessionEvent
  | streamMessage : Option (List Device) → SessionEvent
  | streamError : String → SessionEvent
deriving DecidableEq, Repr

/-- What a run of the session loop produced: its return value (`none`
while the loop is still waiting on the modelled event trace), the
effects of the reconciliations it ran, and the reconciler calls it made
(each `response.devices` with the handler's `is_local` flag). -/
structure SessionOutcome : Type where
  result : Option (Except String InstanceMap)
  effects : List Effect
  reconcile_calls : List (List Device × Bool)
deriving Repr

/-- `internal_do_discover` (`discovery_operator.rs` lines 191-230) over
a trace of select events: a stop signal breaks the loop and returns
`Ok`; `Some(response)` runs `handle_discovery_results` with
`response.devices` and `is_local` and continues (its `Ok` is unwrapped;
the error arm is unreachable since the reconciler always returns `Ok`);
a `None` message logs an error, breaks the loop and returns `Ok`; a
transport error is propagated as `Err` by the `?` operator. -/
def internal_do_discover (now : Nat) (config_name node_name : String)
    (is_local : Bool) (factory_ok : String → Bool)
    (newSender : String → Nat) :
    InstanceMap → List SessionEvent → SessionOutcome
  | _, [] => ⟨none, [], []⟩
  | m, .stopSignal :: _ => ⟨some (.ok m), [], []⟩
  | m, .streamMessage (some devices) :: rest =>
    let h := handle_discovery_results now config_name node_name devices
      is_local factory_ok newSender m
    match h.1 with
    | .ok m2 =>
      let k := internal_do_discover now config_name node_name is_local
        factory_ok newSender m2 rest
      ⟨k.result, h.2 ++ k.effects,
        (devices, is_local) :: k.reconcile_calls⟩
    | .error e => ⟨some (.error e), h.2, [(devices, is_local)]⟩
  | m, .streamMessage none :: _ => ⟨some (.ok m), [], []⟩
  | _, .streamError msg :: _ => ⟨some (.error msg), [], []⟩

/-! ## Claim C6 -/

/-- C6 counterexample: when the stream yields `None` (end of stream
without a transport error), `internal_do_discover` does not return
`Err("unexpected end")` as the claim states: it logs the condition,
breaks the loop and returns `Ok` — here with the instance map
untouched. -/
theorem C6_counterexample :
    (internal_do_discover 0 "c1" "n" false (fun _ => true) (fun _ => 0)
      [("i", ⟨.Online, 1⟩)] [.streamMessage none]).result =
    some (.ok [("i", ⟨.Online, 1⟩)]) := by
  rfl

/-- C6 (amended): the session loop returns `Ok` when the stop signal
fires; on `Some(response)` it calls the reconciler with
`response.devices` and the handler's `is_local` flag and continues with
the updated map; on `None` it logs the unexpected end of stream and
returns `Ok` (not `Err`); and on a transport error it returns `Err`
carrying that error's message. -/
theorem C6_internal_do_discover_cases (now : Nat)
    (config_name node_name : String) (is_local : Bool)
    (factory_ok : String → Bool) (newSender : String → Nat)
    (m : InstanceMap) (rest : List SessionEvent) (devices : List Device)
    (msg : String) :
    internal_do_discover now config_name node_name is_local factory_ok
        newSender m (.stopSignal :: rest) = ⟨some (.ok m), [], []⟩ ∧
    internal_do_discover now config_name node_name is_local factory_ok
        newSender m (.streamMessage (some devices) :: rest) =
      ⟨(internal_do_discover now config_name node_name is_local
          factory_ok newSender
          (reconcileMap now config_name node_name devices is_local
            factory_ok newSender m) rest).result,
        (handle_discovery_results now config_name node_name devices
          is_local factory_ok newSender m).2 ++
        (internal_do_discover now config_name node_name is_local
          factory_ok newSender
          (reconcileMap now config_name node_name devices is_local
            factory_ok newSender m) rest).effects,
        (devices, is_local) ::
        (internal_do_discover now config_name node_name is_local
          factory_ok newSender
          (reconcileMap now config_name node_name devices is_local
            factory_ok newSender m) rest).reconcile_calls⟩ ∧
    internal_do_discover now config_name node_name is_local factory_ok
        newSender m (.streamMessage none :: rest) =
      ⟨some (.ok m), [], []⟩ ∧
    internal_do_discover now config_name node_name is_local factory_ok
        newSender m (.streamError msg :: rest) =
      ⟨some (.error msg), [], []⟩ :=
  ⟨rfl, rfl, rfl, rfl⟩

end Akri
